import Mathlib

/-!
# The protocol runner of the C++ skeleton

A shallow embedding of `Runner::run`, `Runner::send`, `Runner::receive`
(`skeleton/runner.h`) and of `Action` with its stream encoder
(`skeleton/actions.h`, `actions.cpp`), followed by theorems about them.

Conventions of the embedding.

* `int` is modelled by `Int`; a run-time arithmetic result is reduced with
  `wrapInt` to the 32-bit two's-complement range, which is what the compiled
  code computes (ISO C++ leaves signed overflow undefined).
* `std::string` is `String`, `std::vector<T>` is `List T`, `std::array<T, 2>`
  is a pair indexed by `arrayGet` and `arraySet`.
* `StatePtr` is the shared pointer to a `State`: null, a `RoundState` or a
  `TerminalState`.
* A thrown exception, and every use the language leaves undefined (a null or
  wrongly typed pointer dereferenced after `static_pointer_cast`, an index out
  of bounds), is an `Except.error`.
* `constants.h`, `game.h` and `states.h` are not among the sources: the three
  constants, `std::stof` on the clock and `RoundState::proceed` are fields of
  `Env`; `GameInfo`, `RoundState` and `TerminalState` carry the fields that
  `runner.h` reads and writes.
* The bot is a value of `Bot`: its two callbacks thread the bot's own state.
  Every callback invocation and every message written to the stream is
  appended to the runner's `log`.
-/

namespace Skeleton

/-! ## Failures -/

/-- Ways in which `Runner::run` aborts. -/
inductive Fault where
  /-- The exception `std::invalid_argument`, thrown by `std::stoi` and `std::stof`. -/
  | invalid_argument
  /-- The exception `std::out_of_range`, thrown by `std::stoi` and `std::string::substr`. -/
  | out_of_range
  /-- Undefined behaviour: null or wrongly typed pointer, index out of bounds. -/
  | undefined
  deriving DecidableEq, Repr

/-! ## Machine integers -/

/-- Least value of `int`. -/
def INT_MIN : Int := -2147483648

/-- Greatest value of `int`. -/
def INT_MAX : Int := 2147483647

/-- Reduction of an integer to the range of `int` (two's complement, 32 bits). -/
def wrapInt (x : Int) : Int := (x + 2147483648) % 4294967296 - 2147483648

/-- Membership in the range of `int`. -/
def inIntRange (x : Int) : Prop := INT_MIN ≤ x ∧ x ≤ INT_MAX

instance (x : Int) : Decidable (inIntRange x) := by
  unfold inIntRange
  exact inferInstance

/-! ## Strings -/

/-- The predicate `std::isspace` in the classic locale. -/
def isSpace (c : Char) : Bool := c.toNat == 32 || (9 ≤ c.toNat && c.toNat ≤ 13)

/-- Decimal digit test. -/
def isDigit (c : Char) : Bool := 48 ≤ c.toNat && c.toNat ≤ 57

/-- Value of a decimal digit. -/
def digitVal (c : Char) : Int := (c.toNat : Int) - 48

/-- Value of a run of decimal digits, most significant first. -/
def digitsVal (ds : List Char) : Int := ds.foldl (fun acc c => acc * 10 + digitVal c) 0

/-- The number a sign and a run of digits stand for. -/
def signedVal (negative : Bool) (digits : List Char) : Int :=
  if negative then - digitsVal digits else digitsVal digits

/-- The conversion at the end of `std::stoi`, from the sign and the run of
digits read: without a digit it throws `std::invalid_argument`, and
`std::out_of_range` when the value is not an `int`. -/
def stoiValue (negative : Bool) (digits : List Char) : Except Fault Int :=
  if digits = [] then Except.error Fault.invalid_argument
  else if inIntRange (signedVal negative digits) then Except.ok (signedVal negative digits)
  else Except.error Fault.out_of_range

/-- The function `std::stoi(str)` with base 10: leading white space is skipped,
an optional sign is read, then the longest run of digits; whatever follows the
digits is ignored. -/
def stoi (str : String) : Except Fault Int :=
  match str.data.dropWhile isSpace with
  | [] => stoiValue false []
  | c :: rest =>
    if c = '-' then stoiValue true (rest.takeWhile isDigit)
    else if c = '+' then stoiValue false (rest.takeWhile isDigit)
    else stoiValue false ((c :: rest).takeWhile isDigit)

/-- Tokens of `boost::split(result, input, boost::is_any_of(sep))` on characters
(token compression off): one token per separator plus one, empty tokens kept. -/
def splitChars (sep : Char) : List Char → List (List Char)
  | [] => [[]]
  | c :: cs =>
    if c = sep then [] :: splitChars sep cs
    else
      match splitChars sep cs with
      | [] => [[c]]
      | t :: ts => (c :: t) :: ts

/-- The call `boost::split(result, input, boost::is_any_of(sep))`. -/
def split (sep : Char) (input : String) : List String :=
  (splitChars sep input.data).map String.mk

/-- The call `boost::algorithm::trim(line)`: white space removed at both ends. -/
def trim (line : String) : String :=
  String.mk ((line.data.dropWhile isSpace).reverse.dropWhile isSpace).reverse

/-- Element `arr[i]` of a `std::array<T, 2>`; an index other than 0 and 1 is
out of bounds. -/
def arrayGet {α : Type} (arr : α × α) (i : Int) : Except Fault α :=
  if i = 0 then Except.ok arr.1
  else if i = 1 then Except.ok arr.2
  else Except.error Fault.undefined

/-- Assignment `arr[i] = v` on a `std::array<T, 2>`. -/
def arraySet {α : Type} (arr : α × α) (i : Int) (v : α) : Except Fault (α × α) :=
  if i = 0 then Except.ok (v, arr.2)
  else if i = 1 then Except.ok (arr.1, v)
  else Except.error Fault.undefined

/-! ## Actions (`actions.h`, `actions.cpp`) -/

/-- The enumeration `Action::Type`. -/
inductive ActionType where
  | FOLD
  | CALL
  | CHECK
  | RAISE
  | DISCARD
  deriving DecidableEq, Repr

/-- The structure `Action`. Its constructor is
`Action(Type t = CHECK, int a = 0, int b = 0) : actionType(t), amount(a), card(b)`,
so an initialiser with one value leaves `amount` and `card` zero and an
initialiser with two values sets `amount` and leaves `card` zero. -/
structure Action where
  actionType : ActionType
  amount : Int
  card : Int
  deriving DecidableEq, Repr

/-- Decimal text that `operator<<` writes for an `int`. -/
def showInt (n : Int) : String := toString n

/-- The encoder `operator<<(std::ostream&, const Action&)`: the text written. -/
def encode (a : Action) : String :=
  match a.actionType with
  | ActionType.FOLD => "F"
  | ActionType.CALL => "C"
  | ActionType.CHECK => "K"
  | ActionType.DISCARD => "D" ++ showInt a.card
  | _ => "R" ++ showInt a.amount

/-- Bytes that `Runner::send` writes: `stream << action << '\n'`. -/
def sendText (a : Action) : String := encode a ++ "\n"

/-! ## States -/

/-- Modelled from the spec: the structure `GameInfo` of `game.h`, which is
not among the sources. It has the three fields that `runner.h` reads and
passes to its constructor: the bankroll, an `int`; the game clock, of type `κ`
here; the round number, an `int`. -/
structure GameInfo (κ : Type) where
  bankroll : Int
  gameClock : κ
  roundNum : Int
  deriving DecidableEq

/-- Modelled from the spec: the pointer type `StatePtr` of `states.h`, which
is not among the sources: null, or a `RoundState`, or a `TerminalState`.
`RoundState` has the seven fields that `runner.h` reads and passes to
`std::make_shared<RoundState>`; `TerminalState` has the two of
`std::make_shared<TerminalState>`. -/
inductive StatePtr where
  | nullptr
  | RoundState (button street : Int) (pips stacks_ : Int × Int)
      (hands : List String × List String) (board : List String) (previousState : StatePtr)
  | TerminalState (deltas : Int × Int) (previousState : StatePtr)
  deriving DecidableEq, Repr

/-- The test `std::dynamic_pointer_cast<const TerminalState>(p)` as a Boolean. -/
def isTerminalState : StatePtr → Bool
  | StatePtr.TerminalState _ _ => true
  | _ => false

/-- What `runner.h` takes from headers that are not at hand. -/
structure Env (κ : Type) where
  /-- The constant `SMALL_BLIND` of `constants.h`. -/
  SMALL_BLIND : Int
  /-- The constant `BIG_BLIND` of `constants.h`. -/
  BIG_BLIND : Int
  /-- The constant `STARTING_STACK` of `constants.h`. -/
  STARTING_STACK : Int
  /-- The function `std::stof` on the payload of a clock clause. -/
  stof : String → Except Fault κ
  /-- The clock value `0.0` of the initial `GameInfo`. -/
  zeroClock : κ
  /-- The member `RoundState::proceed` of `states.h`, applied to a round state. -/
  proceed : StatePtr → Action → StatePtr

/-- The two callbacks of `BotType` that the runner invokes; `β` is the state of
the bot object. -/
structure Bot (β κ : Type) where
  handleNewRound : β → GameInfo κ → StatePtr → Int → β
  getAction : β → GameInfo κ → StatePtr → Int → Action × β

/-- Observable events of a run, in order. -/
inductive Event (κ : Type) where
  | handleNewRound (gameInfo : GameInfo κ) (roundState : StatePtr) (active : Int)
  | getAction (gameInfo : GameInfo κ) (roundState : StatePtr) (active : Int)
  | send (text : String)
  deriving DecidableEq

/-- The local variables of `Runner::run` together with the bot object and the
log of events. -/
structure Runner (β κ : Type) where
  pokerbot : β
  gameInfo : GameInfo κ
  roundState : StatePtr
  active : Int
  roundFlag : Bool
  log : List (Event κ)

/-- State at the top of `Runner::run`, lines 49 to 56. -/
def Runner.initial {β κ : Type} (env : Env κ) (pokerbot : β) : Runner β κ :=
  { pokerbot := pokerbot
    gameInfo := { bankroll := 0, gameClock := env.zeroClock, roundNum := 1 }
    roundState := StatePtr.RoundState 0 0 (0, 0) (0, 0) ([], []) [] StatePtr.nullptr
    active := 0
    roundFlag := true
    log := [] }

/-- How a clause or a line leaves the loop of `Runner::run`. -/
inductive Flow (ρ : Type) where
  /-- Control goes on to the next clause or line. -/
  | next (r : ρ)
  /-- The statement `return` of case 'Q' was executed. -/
  | returned (r : ρ)

/-! ## The cases of the switch -/

/-- Case 'T'. -/
def caseT {β κ : Type} (env : Env κ) (r : Runner β κ) (leftover : String) :
    Except Fault (Runner β κ) :=
  match env.stof leftover with
  | Except.error e => Except.error e
  | Except.ok clock =>
    Except.ok { r with gameInfo :=
      { bankroll := r.gameInfo.bankroll, gameClock := clock, roundNum := r.gameInfo.roundNum } }

/-- Case 'P'. -/
def caseP {β κ : Type} (r : Runner β κ) (leftover : String) : Except Fault (Runner β κ) :=
  match stoi leftover with
  | Except.error e => Except.error e
  | Except.ok n => Except.ok { r with active := n }

/-- Case 'H'. Reading `cards[2]` when fewer than three tokens were split, and
writing `hands[active]` for an index other than 0 and 1, are out of bounds. -/
def caseH {β κ : Type} (env : Env κ) (r : Runner β κ) (leftover : String) :
    Except Fault (Runner β κ) :=
  match split ',' leftover with
  | c0 :: c1 :: c2 :: _ =>
    match arraySet (([], []) : List String × List String) r.active [c0, c1, c2] with
    | Except.error e => Except.error e
    | Except.ok hands =>
      let pips : Int × Int := (env.SMALL_BLIND, env.BIG_BLIND)
      let stacks_ : Int × Int :=
        (wrapInt (env.STARTING_STACK - env.SMALL_BLIND),
         wrapInt (env.STARTING_STACK - env.BIG_BLIND))
      let fresh := StatePtr.RoundState 0 0 pips stacks_ hands [] StatePtr.nullptr
      Except.ok { r with roundState := fresh }
  | _ => Except.error Fault.undefined

/-- Case 'G'. -/
def caseG {β κ : Type} (bot : Bot β κ) (r : Runner β κ) : Except Fault (Runner β κ) :=
  match r.roundState with
  | StatePtr.RoundState button street pips stacks_ hands board previousState =>
    let fresh := StatePtr.RoundState button street pips stacks_ hands board previousState
    if r.roundFlag then
      Except.ok { r with
        roundState := fresh
        pokerbot := bot.handleNewRound r.pokerbot r.gameInfo fresh r.active
        roundFlag := false
        log := r.log ++ [Event.handleNewRound r.gameInfo fresh r.active] }
    else Except.ok { r with roundState := fresh }
  | _ => Except.error Fault.undefined

/-- The statement `roundState = static_pointer_cast<const RoundState>(roundState)->proceed(a)`
of cases 'F', 'C', 'K', 'D' and 'R'. -/
def applyProceed {β κ : Type} (env : Env κ) (r : Runner β κ) (a : Action) :
    Except Fault (Runner β κ) :=
  match r.roundState with
  | StatePtr.RoundState button street pips stacks_ hands board previousState =>
    let maker := StatePtr.RoundState button street pips stacks_ hands board previousState
    Except.ok { r with roundState := env.proceed maker a }
  | _ => Except.error Fault.undefined

/-- Case 'F': `proceed({ Action::Type::FOLD })`. -/
def caseF {β κ : Type} (env : Env κ) (r : Runner β κ) : Except Fault (Runner β κ) :=
  applyProceed env r { actionType := ActionType.FOLD, amount := 0, card := 0 }

/-- Case 'C': `proceed({ Action::Type::CALL })`. -/
def caseC {β κ : Type} (env : Env κ) (r : Runner β κ) : Except Fault (Runner β κ) :=
  applyProceed env r { actionType := ActionType.CALL, amount := 0, card := 0 }

/-- Case 'K': `proceed({ Action::Type::CHECK })`. -/
def caseK {β κ : Type} (env : Env κ) (r : Runner β κ) : Except Fault (Runner β κ) :=
  applyProceed env r { actionType := ActionType.CHECK, amount := 0, card := 0 }

/-- The action built in case 'D' by `{ Action::Type::DISCARD, std::stoi(leftover) }`:
the second constructor argument is `amount`. -/
def discardAction (n : Int) : Action :=
  { actionType := ActionType.DISCARD, amount := n, card := 0 }

/-- The action built in case 'R' by `{ Action::Type::RAISE, std::stoi(leftover) }`. -/
def raiseAction (n : Int) : Action :=
  { actionType := ActionType.RAISE, amount := n, card := 0 }

/-- Case 'D'. -/
def caseD {β κ : Type} (env : Env κ) (r : Runner β κ) (leftover : String) :
    Except Fault (Runner β κ) :=
  match stoi leftover with
  | Except.error e => Except.error e
  | Except.ok n => applyProceed env r (discardAction n)

/-- Case 'R'. -/
def caseR {β κ : Type} (env : Env κ) (r : Runner β κ) (leftover : String) :
    Except Fault (Runner β κ) :=
  match stoi leftover with
  | Except.error e => Except.error e
  | Except.ok n => applyProceed env r (raiseAction n)

/-- Case 'B'. -/
def caseB {β κ : Type} (r : Runner β κ) (leftover : String) : Except Fault (Runner β κ) :=
  match r.roundState with
  | StatePtr.RoundState button street pips stacks_ hands _ previousState =>
    let revisedBoard := split ',' leftover
    let fresh := StatePtr.RoundState button street pips stacks_ hands revisedBoard previousState
    Except.ok { r with roundState := fresh }
  | _ => Except.error Fault.undefined

/-- Case 'O' (backtrack). The loop pushes every split card on
`revisedHands[1 - active]`; the split never yields an empty vector, so the
index is always used. -/
def caseO {β κ : Type} (r : Runner β κ) (leftover : String) : Except Fault (Runner β κ) :=
  match r.roundState with
  | StatePtr.TerminalState _ (StatePtr.RoundState button street pips stacks_ hands board
      previousState) =>
    match arrayGet hands (wrapInt (1 - r.active)) with
    | Except.error e => Except.error e
    | Except.ok hand =>
      match arraySet hands (wrapInt (1 - r.active)) (hand ++ split ',' leftover) with
      | Except.error e => Except.error e
      | Except.ok revisedHands =>
        let rebuilt :=
          StatePtr.RoundState button street pips stacks_ revisedHands board previousState
        Except.ok { r with roundState := StatePtr.TerminalState (0, 0) rebuilt }
  | _ => Except.error Fault.undefined

/-- Case 'A'. The array `deltas` starts uninitialised; both of its entries are
written when `active` is 0 or 1, and otherwise the first write is out of
bounds, so the starting pair is never observed. -/
def caseA {β κ : Type} (r : Runner β κ) (leftover : String) : Except Fault (Runner β κ) :=
  match stoi leftover with
  | Except.error e => Except.error e
  | Except.ok delta =>
    match arraySet ((0, 0) : Int × Int) r.active delta with
    | Except.error e => Except.error e
    | Except.ok deltas1 =>
      match arraySet deltas1 (wrapInt (1 - r.active)) (wrapInt (-1 * delta)) with
      | Except.error e => Except.error e
      | Except.ok deltas =>
        match r.roundState with
        | StatePtr.TerminalState _ previousState =>
          Except.ok { r with
            roundState := StatePtr.TerminalState deltas previousState
            gameInfo :=
              { bankroll := wrapInt (r.gameInfo.bankroll + delta)
                gameClock := r.gameInfo.gameClock
                roundNum := r.gameInfo.roundNum } }
        | _ => Except.error Fault.undefined

/-- Lifts the result of a case that ends in `break`. -/
def breakWith {ρ : Type} (x : Except Fault ρ) : Except Fault (Flow ρ) :=
  match x with
  | Except.error e => Except.error e
  | Except.ok r => Except.ok (Flow.next r)

/-- One iteration of the loop over the clauses of a packet, lines 60 to 162:
`clause.substr(1)` throws `std::out_of_range` on the empty clause, then the
switch on `clause[0]`. -/
def clauseStep {β κ : Type} (env : Env κ) (bot : Bot β κ) (r : Runner β κ)
    (clause : String) : Except Fault (Flow (Runner β κ)) :=
  match clause.data with
  | [] => Except.error Fault.out_of_range
  | tag :: rest =>
    let leftover := String.mk rest
    if tag = 'T' then breakWith (caseT env r leftover)
    else if tag = 'P' then breakWith (caseP r leftover)
    else if tag = 'H' then breakWith (caseH env r leftover)
    else if tag = 'G' then breakWith (caseG bot r)
    else if tag = 'F' then breakWith (caseF env r)
    else if tag = 'C' then breakWith (caseC env r)
    else if tag = 'K' then breakWith (caseK env r)
    else if tag = 'D' then breakWith (caseD env r leftover)
    else if tag = 'R' then breakWith (caseR env r leftover)
    else if tag = 'B' then breakWith (caseB r leftover)
    else if tag = 'O' then breakWith (caseO r leftover)
    else if tag = 'A' then breakWith (caseA r leftover)
    else if tag = 'Q' then Except.ok (Flow.returned r)
    else Except.ok (Flow.next r)

/-- The loop `for (const auto& clause : packet)`. -/
def foldClauses {β κ : Type} (env : Env κ) (bot : Bot β κ) :
    Runner β κ → List String → Except Fault (Flow (Runner β κ))
  | r, [] => Except.ok (Flow.next r)
  | r, clause :: rest =>
    match clauseStep env bot r clause with
    | Except.error e => Except.error e
    | Except.ok (Flow.returned r1) => Except.ok (Flow.returned r1)
    | Except.ok (Flow.next r1) => foldClauses env bot r1 rest

/-- The packet of `Runner::receive` for a line read by `std::getline`. -/
def receive (line : String) : List String := split ' ' (trim line)

/-- The statement after the clause loop, lines 165 to 171. -/
def respond {β κ : Type} (bot : Bot β κ) (r : Runner β κ) : Runner β κ :=
  if r.roundFlag || isTerminalState r.roundState then
    { r with log := r.log ++
        [Event.send (sendText { actionType := ActionType.CHECK, amount := 0, card := 0 })] }
  else
    { r with
      pokerbot := (bot.getAction r.pokerbot r.gameInfo r.roundState r.active).2
      log := r.log ++
        [Event.getAction r.gameInfo r.roundState r.active,
         Event.send (sendText (bot.getAction r.pokerbot r.gameInfo r.roundState r.active).1)] }

/-- One iteration of `while (true)` once the packet is received: its clauses
are folded and, unless case 'Q' returned, the answer is sent. -/
def packetStep {β κ : Type} (env : Env κ) (bot : Bot β κ) (r : Runner β κ)
    (packet : List String) : Except Fault (Flow (Runner β κ)) :=
  match foldClauses env bot r packet with
  | Except.error e => Except.error e
  | Except.ok (Flow.returned r1) => Except.ok (Flow.returned r1)
  | Except.ok (Flow.next r1) => Except.ok (Flow.next (respond bot r1))

/-- One iteration of `while (true)` on the line that `std::getline` reads. -/
def lineStep {β κ : Type} (env : Env κ) (bot : Bot β κ) (r : Runner β κ) (line : String) :
    Except Fault (Flow (Runner β κ)) :=
  packetStep env bot r (receive line)

/-- The loop `while (true)` over the packets received, in order. -/
def runPackets {β κ : Type} (env : Env κ) (bot : Bot β κ) :
    Runner β κ → List (List String) → Except Fault (Flow (Runner β κ))
  | r, [] => Except.ok (Flow.next r)
  | r, packet :: rest =>
    match packetStep env bot r packet with
    | Except.error e => Except.error e
    | Except.ok (Flow.returned r1) => Except.ok (Flow.returned r1)
    | Except.ok (Flow.next r1) => runPackets env bot r1 rest

/-- The loop `while (true)` over the lines that the stream delivers, in order. -/
def runLines {β κ : Type} (env : Env κ) (bot : Bot β κ) (r : Runner β κ)
    (lines : List String) : Except Fault (Flow (Runner β κ)) :=
  runPackets env bot r (lines.map receive)

/-! ## Observations on a run -/

/-- The runner that a flow carries. -/
def Flow.runner {ρ : Type} : Flow ρ → ρ
  | Flow.next r => r
  | Flow.returned r => r

/-- The invocations of `handleNewRound` in a log, in order. -/
def newRoundCalls {κ : Type} (log : List (Event κ)) : List (Event κ) :=
  log.filter fun e =>
    match e with
    | Event.handleNewRound _ _ _ => true
    | _ => false

/-- The invocations of `getAction` in a log, in order. -/
def getActionCalls {κ : Type} (log : List (Event κ)) : List (Event κ) :=
  log.filter fun e =>
    match e with
    | Event.getAction _ _ _ => true
    | _ => false

/-- The messages written to the stream in a log, in order. -/
def sentTexts {κ : Type} (log : List (Event κ)) : List String :=
  log.filterMap fun e =>
    match e with
    | Event.send text => some text
    | _ => none

/-- Two runners, possibly driven by different bots, agree on what the clauses
rebuild: game info, state, active seat and round flag, and on the invocations
of `handleNewRound` logged so far. -/
def Agree {β β' κ : Type} (r : Runner β κ) (r' : Runner β' κ) : Prop :=
  r.gameInfo = r'.gameInfo ∧ r.roundState = r'.roundState ∧ r.active = r'.active
    ∧ r.roundFlag = r'.roundFlag ∧ newRoundCalls r.log = newRoundCalls r'.log

/-- Agreement of the results of a case of the switch. -/
def ExceptAgree {β β' κ : Type} :
    Except Fault (Runner β κ) → Except Fault (Runner β' κ) → Prop
  | Except.error e, Except.error e' => e = e'
  | Except.ok r, Except.ok r' => Agree r r'
  | _, _ => False

/-- Agreement of the results of a clause, a packet or a run: the same failure,
or the same way of leaving the loop with runners that agree. -/
def FlowAgree {β β' κ : Type} :
    Except Fault (Flow (Runner β κ)) → Except Fault (Flow (Runner β' κ)) → Prop
  | Except.error e, Except.error e' => e = e'
  | Except.ok (Flow.next r), Except.ok (Flow.next r') => Agree r r'
  | Except.ok (Flow.returned r), Except.ok (Flow.returned r') => Agree r r'
  | _, _ => False

/-- How a stretch of the run may change the round flag and the logged
invocations of `handleNewRound`: either both are kept, or the flag goes from
set to clear and exactly one invocation is added. -/
def FlagStep {β κ : Type} (r rf : Runner β κ) : Prop :=
  (rf.roundFlag = r.roundFlag ∧ newRoundCalls rf.log = newRoundCalls r.log)
  ∨ (r.roundFlag = true ∧ rf.roundFlag = false
      ∧ ∃ call : Event κ, newRoundCalls rf.log = newRoundCalls r.log ++ [call])

/-- The integer payload of a payout clause, as `std::stoi` reads it; zero for
a clause with another tag. -/
def awardOf (clause : String) : Int :=
  match clause.data with
  | [] => 0
  | tag :: rest =>
    if tag = 'A' then
      match stoi (String.mk rest) with
      | Except.ok delta => delta
      | Except.error _ => 0
    else 0

/-- The sum of the integer payloads of the payout clauses of a sequence. -/
def awardSum (clauses : List String) : Int := (clauses.map awardOf).sum

/-- The bot state after one logged event: a logged callback is applied to the
bot state, a sent message leaves it as it is. -/
def replayStep {β κ : Type} (bot : Bot β κ) (pokerbot : β) : Event κ → β
  | Event.handleNewRound gameInfo roundState active =>
    bot.handleNewRound pokerbot gameInfo roundState active
  | Event.getAction gameInfo roundState active =>
    (bot.getAction pokerbot gameInfo roundState active).2
  | Event.send _ => pokerbot

/-- The bot state after the callbacks of a log are applied in order. -/
def replay {β κ : Type} (bot : Bot β κ) (log : List (Event κ)) (pokerbot : β) : β :=
  log.foldl (replayStep bot) pokerbot

/-! ## Sample environment, bot and states -/

/-- An environment with blinds 1 and 2, starting stack 200, an integer clock,
and a `proceed` that ends the round on a fold and keeps the state otherwise. -/
def sampleEnv : Env Int :=
  { SMALL_BLIND := 1
    BIG_BLIND := 2
    STARTING_STACK := 200
    stof := stoi
    zeroClock := 0
    proceed := fun s a =>
      if a.actionType = ActionType.FOLD then StatePtr.TerminalState (0, 0) s else s }

/-- A bot that counts its callbacks and always calls. -/
def sampleBot : Bot Nat Int :=
  { handleNewRound := fun n _ _ _ => n + 1
    getAction := fun n _ _ _ => ({ actionType := ActionType.CALL, amount := 0, card := 0 }, n + 1) }

/-- A round in play: seat 0 holds three cards, the flop is on the board. -/
def sampleRound : StatePtr :=
  StatePtr.RoundState 1 3 (4, 4) (196, 196) (["As", "Kd", "2c"], []) ["9h", "Tc", "Jd"]
    StatePtr.nullptr

/-- A runner in the middle of a session whose round has just ended. -/
def sampleEnded : Runner Nat Int :=
  { pokerbot := 1
    gameInfo := { bankroll := 12, gameClock := 90, roundNum := 1 }
    roundState := StatePtr.TerminalState (0, 0) sampleRound
    active := 0
    roundFlag := false
    log := [] }

/-- A runner in the middle of a session, inside the sample round. -/
def sampleActive : Runner Nat Int :=
  { pokerbot := 1
    gameInfo := { bankroll := 12, gameClock := 90, roundNum := 1 }
    roundState := sampleRound
    active := 0
    roundFlag := false
    log := [] }

/-! ## Lemmas on strings -/

theorem splitChars_ne_nil (sep : Char) (l : List Char) : splitChars sep l ≠ [] := by
  induction l with
  | nil => simp [splitChars]
  | cons c cs ih =>
    unfold splitChars
    split
    · simp
    · split <;> simp

theorem splitChars_append (sep : Char) (t rest : List Char) (ht : sep ∉ t) :
    splitChars sep (t ++ rest) =
      (t ++ (splitChars sep rest).headD []) :: (splitChars sep rest).tail := by
  induction t with
  | nil =>
    have h := splitChars_ne_nil sep rest
    cases hs : splitChars sep rest with
    | nil => exact absurd hs h
    | cons u us => simp [hs]
  | cons c cs ih =>
    have hc : c ≠ sep := fun h => ht (by simp [h])
    have hcs : sep ∉ cs := fun h => ht (by simp [h])
    have e : splitChars sep (c :: (cs ++ rest)) =
        match splitChars sep (cs ++ rest) with
        | [] => [[c]]
        | t :: ts => (c :: t) :: ts := by
      simp [splitChars, hc]
    rw [List.cons_append, e, ih hcs]
    rfl

/-- Characters of a list of tokens joined by a separator. -/
theorem splitChars_join (sep : Char) (ts : List (List Char)) (hne : ts ≠ [])
    (hsep : ∀ t ∈ ts, sep ∉ t) :
    splitChars sep (List.intercalate [sep] ts) = ts := by
  induction ts with
  | nil => exact absurd rfl hne
  | cons t us ih =>
    cases us with
    | nil =>
      have h := splitChars_append sep t [] (hsep t (by simp))
      simpa [List.intercalate, splitChars] using h
    | cons u vs =>
      have ih1 := ih (by simp) (fun x hx => hsep x (List.mem_cons_of_mem _ hx))
      have h := splitChars_append sep t (sep :: List.intercalate [sep] (u :: vs))
        (hsep t (by simp))
      have e : List.intercalate [sep] (t :: u :: vs)
          = t ++ sep :: List.intercalate [sep] (u :: vs) := by
        simp [List.intercalate, List.intersperse]
      rw [e, h]
      simp [splitChars, ih1]

theorem intercalate_go_data (sep : String) (l : List String) (acc : String) :
    (String.intercalate.go acc sep l).data
      = acc.data ++ (l.map (fun a => sep.data ++ a.data)).flatten := by
  induction l generalizing acc with
  | nil => simp [String.intercalate.go]
  | cons a as ih => simp [String.intercalate.go, ih, String.data_append]

theorem intercalate_data (sep : Char) (l : List String) :
    (String.intercalate (String.singleton sep) l).data
      = List.intercalate [sep] (l.map String.data) := by
  cases l with
  | nil => rfl
  | cons a as =>
    simp only [String.intercalate, intercalate_go_data]
    have hs : (String.singleton sep).data = [sep] := rfl
    rw [hs]
    induction as generalizing a with
    | nil => simp [List.intercalate]
    | cons b bs ih =>
      have := ih b
      simp [List.intercalate, List.intersperse] at this ⊢
      exact this

/-- Splitting a list of tokens joined by a separator gives the tokens back,
when there is at least one token and no token contains the separator. -/
theorem split_intercalate (sep : Char) (cs : List String) (hne : cs ≠ [])
    (hsep : ∀ c ∈ cs, sep ∉ c.data) :
    split sep (String.intercalate (String.singleton sep) cs) = cs := by
  unfold split
  rw [intercalate_data, splitChars_join]
  · simp [List.map_map, Function.comp_def]
  · simpa using hne
  · intro t ht
    obtain ⟨c, hc, rfl⟩ := List.mem_map.1 ht
    exact hsep c hc

/-! ## The decimal form of an integer is read back by `stoi` -/

theorem digitChar_facts (d : Nat) (hd : d < 10) :
    isDigit (Nat.digitChar d) = true ∧ digitVal (Nat.digitChar d) = (d : Int)
      ∧ isSpace (Nat.digitChar d) = false ∧ Nat.digitChar d ≠ '-'
      ∧ Nat.digitChar d ≠ '+' := by
  interval_cases d <;> decide

theorem digitsVal_append_one (l : List Char) (c : Char) :
    digitsVal (l ++ [c]) = digitsVal l * 10 + digitVal c := by
  simp [digitsVal, List.foldl_append]

/-- The digits that `Nat.toDigitsCore` puts in front of its accumulator. -/
theorem toDigitsCore_spec (fuel n : Nat) (ds : List Char) (h : n < fuel) :
    ∃ l : List Char, Nat.toDigitsCore 10 fuel n ds = l ++ ds ∧ l ≠ []
      ∧ (∀ c ∈ l, isDigit c = true) ∧ digitsVal l = (n : Int) := by
  induction fuel generalizing n ds with
  | zero => exact absurd h (Nat.not_lt_zero _)
  | succ fuel ih =>
    have hd := digitChar_facts (n % 10) (Nat.mod_lt _ (by decide))
    unfold Nat.toDigitsCore
    by_cases h0 : n / 10 = 0
    · refine ⟨[Nat.digitChar (n % 10)], by simp [h0], by simp, ?_, ?_⟩
      · intro c hc
        rw [List.mem_singleton.1 hc]
        exact hd.1
      · have hn : n % 10 = n := by omega
        have h2 := hd.2.1
        rw [hn] at h2 ⊢
        simp [digitsVal, h2]
    · have hlt : n / 10 < fuel := by omega
      obtain ⟨l, h1, _, h3, h4⟩ := ih (n / 10) (Nat.digitChar (n % 10) :: ds) hlt
      refine ⟨l ++ [Nat.digitChar (n % 10)], by simp [h0, h1], by simp, ?_, ?_⟩
      · intro c hc
        rcases List.mem_append.1 hc with hc | hc
        · exact h3 c hc
        · rw [List.mem_singleton.1 hc]
          exact hd.1
      · rw [digitsVal_append_one, h4, hd.2.1]
        omega

theorem toDigits_spec (n : Nat) :
    Nat.toDigits 10 n ≠ [] ∧ (∀ c ∈ Nat.toDigits 10 n, isDigit c = true)
      ∧ digitsVal (Nat.toDigits 10 n) = (n : Int) := by
  obtain ⟨l, h1, h2, h3, h4⟩ := toDigitsCore_spec (n + 1) n [] (Nat.lt_succ_self n)
  have e : Nat.toDigits 10 n = l := by
    simp [Nat.toDigits, h1]
  rw [e]
  exact ⟨h2, h3, h4⟩

theorem takeWhile_isDigit_all (l : List Char) (h : ∀ c ∈ l, isDigit c = true) :
    l.takeWhile isDigit = l := by
  induction l with
  | nil => rfl
  | cons c cs ih =>
    have hc := h c (by simp)
    simp [List.takeWhile, hc, ih (fun x hx => h x (List.mem_cons_of_mem _ hx))]

theorem isDigit_facts (c : Char) (h : isDigit c = true) :
    isSpace c = false ∧ c ≠ '-' ∧ c ≠ '+' := by
  have hc : 48 ≤ c.toNat ∧ c.toNat ≤ 57 := by
    simpa [isDigit] using h
  refine ⟨?_, ?_, ?_⟩
  · simp only [isSpace, Bool.or_eq_false_iff, Bool.and_eq_false_iff, beq_eq_false_iff_ne,
      decide_eq_false_iff_not]
    omega
  · intro e
    rw [e] at hc
    exact absurd hc (by decide)
  · intro e
    rw [e] at hc
    exact absurd hc (by decide)

/-- The function `stoi` on the decimal form of a natural number. -/
theorem stoi_natDigits (n : Nat) :
    stoi (String.mk (Nat.toDigits 10 n)) = stoiValue false (Nat.toDigits 10 n) := by
  obtain ⟨h1, h2, _⟩ := toDigits_spec n
  unfold stoi
  cases hl : Nat.toDigits 10 n with
  | nil => exact absurd hl h1
  | cons c cs =>
    have hall : ∀ x ∈ c :: cs, isDigit x = true := by
      rw [← hl]
      exact h2
    have hc := isDigit_facts c (hall c (by simp))
    have htake := takeWhile_isDigit_all (c :: cs) hall
    simp only [List.dropWhile, hc.1, hc.2.1, hc.2.2, if_false, htake]

/-- The function `stoi` on a minus sign followed by the decimal form of a
natural number. -/
theorem stoi_minus_natDigits (n : Nat) :
    stoi (String.mk ('-' :: Nat.toDigits 10 n)) = stoiValue true (Nat.toDigits 10 n) := by
  obtain ⟨_, h2, _⟩ := toDigits_spec n
  have hsp : isSpace '-' = false := by decide
  unfold stoi
  simp only [List.dropWhile, hsp, if_true, takeWhile_isDigit_all _ h2]

/-- Round trip: `std::stoi` reads the decimal form of an `int` back as that
`int`. -/
theorem stoi_showInt (n : Int) (h : inIntRange n) : stoi (showInt n) = Except.ok n := by
  cases n with
  | ofNat m =>
    have e : showInt (Int.ofNat m) = String.mk (Nat.toDigits 10 m) := rfl
    obtain ⟨h1, _, h3⟩ := toDigits_spec m
    have hv : signedVal false (Nat.toDigits 10 m) = Int.ofNat m := by
      simp [signedVal, h3]
    rw [e, stoi_natDigits, stoiValue, if_neg h1, hv, if_pos h]
  | negSucc m =>
    have e : showInt (Int.negSucc m) = String.mk ('-' :: Nat.toDigits 10 (m + 1)) := rfl
    obtain ⟨h1, _, h3⟩ := toDigits_spec (m + 1)
    have hv : signedVal true (Nat.toDigits 10 (m + 1)) = Int.negSucc m := by
      simp [signedVal, h3, Int.negSucc_eq]
    rw [e, stoi_minus_natDigits, stoiValue, if_neg h1, hv, if_pos h]

/-! ## Lemmas on machine integers and on the dispatch -/

theorem wrapInt_of_inIntRange (x : Int) (h : inIntRange x) : wrapInt x = x := by
  unfold inIntRange INT_MIN INT_MAX at h
  unfold wrapInt
  omega

theorem stoiValue_inIntRange (negative : Bool) (digits : List Char) (n : Int)
    (h : stoiValue negative digits = Except.ok n) : inIntRange n := by
  unfold stoiValue at h
  split_ifs at h with h1 h2
  have e := Except.ok.inj h
  rw [← e]
  exact h2

theorem stoi_inIntRange (str : String) (n : Int) (h : stoi str = Except.ok n) :
    inIntRange n := by
  unfold stoi at h
  split at h
  · exact stoiValue_inIntRange _ _ n h
  · split_ifs at h <;> exact stoiValue_inIntRange _ _ n h

theorem tagged_data (tag : Char) (leftover : String) :
    (String.singleton tag ++ leftover).data = tag :: leftover.data := by
  simp [String.data_append, String.singleton]

theorem clauseStep_O {β κ : Type} (env : Env κ) (bot : Bot β κ) (r : Runner β κ)
    (leftover : String) :
    clauseStep env bot r ("O" ++ leftover) = breakWith (caseO r leftover) := by
  have h : ("O" ++ leftover).data = 'O' :: leftover.data := tagged_data 'O' leftover
  simp [clauseStep, h]

theorem clauseStep_A {β κ : Type} (env : Env κ) (bot : Bot β κ) (r : Runner β κ)
    (leftover : String) :
    clauseStep env bot r ("A" ++ leftover) = breakWith (caseA r leftover) := by
  have h : ("A" ++ leftover).data = 'A' :: leftover.data := tagged_data 'A' leftover
  simp [clauseStep, h]

theorem clauseStep_H {β κ : Type} (env : Env κ) (bot : Bot β κ) (r : Runner β κ)
    (leftover : String) :
    clauseStep env bot r ("H" ++ leftover) = breakWith (caseH env r leftover) := by
  have h : ("H" ++ leftover).data = 'H' :: leftover.data := tagged_data 'H' leftover
  simp [clauseStep, h]

theorem clauseStep_G {β κ : Type} (env : Env κ) (bot : Bot β κ) (r : Runner β κ) :
    clauseStep env bot r "G" = breakWith (caseG bot r) := by
  have h : ("G" : String).data = ['G'] := rfl
  simp [clauseStep, h]

theorem clauseStep_D {β κ : Type} (env : Env κ) (bot : Bot β κ) (r : Runner β κ)
    (leftover : String) :
    clauseStep env bot r ("D" ++ leftover) = breakWith (caseD env r leftover) := by
  have h : ("D" ++ leftover).data = 'D' :: leftover.data := tagged_data 'D' leftover
  simp [clauseStep, h]

/-- What case 'O' computes on a terminal state that concludes a round state,
for an active seat 0 or 1. -/
theorem caseO_eq {β κ : Type} (r : Runner β κ) (leftover : String)
    (deltas : Int × Int) (button street : Int) (pips stacks_ : Int × Int)
    (hands : List String × List String) (board : List String) (previousState : StatePtr)
    (ha : r.active = 0 ∨ r.active = 1)
    (hstate : r.roundState = StatePtr.TerminalState deltas
      (StatePtr.RoundState button street pips stacks_ hands board previousState)) :
    caseO r leftover = Except.ok { r with roundState :=
      (StatePtr.TerminalState (0, 0) (StatePtr.RoundState button street pips stacks_
        (if r.active = 0 then (hands.1, hands.2 ++ split ',' leftover)
         else (hands.1 ++ split ',' leftover, hands.2))
        board previousState)) } := by
  rcases ha with h0 | h1
  · simp [caseO, hstate, h0, wrapInt, arrayGet, arraySet]
  · simp [caseO, hstate, h1, wrapInt, arrayGet, arraySet]

/-- What case 'A' computes on a terminal state for an active seat 0 or 1 and a
payload that `std::stoi` reads as `d`. -/
theorem caseA_eq {β κ : Type} (r : Runner β κ) (leftover : String) (d : Int)
    (deltas : Int × Int) (previousState : StatePtr)
    (ha : r.active = 0 ∨ r.active = 1)
    (hstate : r.roundState = StatePtr.TerminalState deltas previousState)
    (hparse : stoi leftover = Except.ok d) :
    caseA r leftover = Except.ok { r with
      roundState := (StatePtr.TerminalState
        (if r.active = 0 then (d, wrapInt (-1 * d)) else (wrapInt (-1 * d), d)) previousState)
      gameInfo :=
        { bankroll := wrapInt (r.gameInfo.bankroll + d)
          gameClock := r.gameInfo.gameClock
          roundNum := r.gameInfo.roundNum } } := by
  rcases ha with h0 | h1
  · simp [caseA, hstate, hparse, h0, wrapInt, arraySet]
  · simp [caseA, hstate, hparse, h1, wrapInt, arraySet]

theorem comma_eq_singleton : ("," : String) = String.singleton ',' := rfl

theorem wrapInt_neg_of_ne_min (d : Int) (hd : inIntRange d) (hne : d ≠ INT_MIN) :
    wrapInt (-1 * d) = -d := by
  unfold inIntRange INT_MIN INT_MAX at hd
  unfold INT_MIN at hne
  unfold wrapInt
  omega

/-! ## The backtrack clause 'O' and the payout clause 'A' -/

/-- C1. Backtrack: with the active seat 0 or 1, a current terminal state whose
previous state is a round state and a payload of one or more comma-separated
cards `cs`, folding the clause 'O' yields a terminal state with deltas (0, 0)
whose previous state is a round state with `cs` appended to the hand of the
seat that is not active, the hand of the active seat kept, and button, street,
pips, stacks, board and previous state kept; every other component of the
runner (game info, active seat, round flag, bot, log) is unchanged. -/
theorem backtrack_O_clause {β κ : Type} (env : Env κ) (bot : Bot β κ) (r : Runner β κ)
    (deltas : Int × Int) (button street : Int) (pips stacks_ : Int × Int)
    (hands : List String × List String) (board : List String) (previousState : StatePtr)
    (cs : List String)
    (ha : r.active = 0 ∨ r.active = 1)
    (hstate : r.roundState = StatePtr.TerminalState deltas
      (StatePtr.RoundState button street pips stacks_ hands board previousState))
    (hne : cs ≠ []) (hcomma : ∀ c ∈ cs, ',' ∉ c.data) :
    ∃ revisedHands : List String × List String,
      clauseStep env bot r ("O" ++ String.intercalate "," cs)
        = Except.ok (Flow.next { r with roundState :=
            (StatePtr.TerminalState (0, 0)
              (StatePtr.RoundState button street pips stacks_ revisedHands board
                previousState)) })
      ∧ arrayGet revisedHands (1 - r.active)
          = Except.map (fun hand => hand ++ cs) (arrayGet hands (1 - r.active))
      ∧ arrayGet revisedHands r.active = arrayGet hands r.active := by
  have hsplit : split ',' (String.intercalate "," cs) = cs := by
    rw [comma_eq_singleton]
    exact split_intercalate ',' cs hne hcomma
  refine ⟨if r.active = 0 then (hands.1, hands.2 ++ cs) else (hands.1 ++ cs, hands.2),
    ?_, ?_, ?_⟩
  · rw [clauseStep_O, caseO_eq r _ deltas button street pips stacks_ hands board previousState
      ha hstate, hsplit]
    rfl
  · rcases ha with h0 | h1
    · simp [h0, arrayGet, Except.map]
    · simp [h1, arrayGet, Except.map]
  · rcases ha with h0 | h1
    · simp [h0, arrayGet]
    · simp [h1, arrayGet]

/-- Witness of C1: the opponent's cards `Qc,Qs` revealed to seat 0 after the
sample round ended. -/
theorem backtrack_O_clause_witness :
    ∃ revisedHands : List String × List String,
      clauseStep sampleEnv sampleBot sampleEnded ("O" ++ String.intercalate "," ["Qc", "Qs"])
        = Except.ok (Flow.next { sampleEnded with roundState :=
            (StatePtr.TerminalState (0, 0)
              (StatePtr.RoundState 1 3 (4, 4) (196, 196) revisedHands ["9h", "Tc", "Jd"]
                StatePtr.nullptr)) })
      ∧ arrayGet revisedHands (1 - sampleEnded.active)
          = Except.map (fun hand => hand ++ ["Qc", "Qs"])
              (arrayGet (["As", "Kd", "2c"], []) (1 - sampleEnded.active))
      ∧ arrayGet revisedHands sampleEnded.active
          = arrayGet (["As", "Kd", "2c"], []) sampleEnded.active :=
  backtrack_O_clause sampleEnv sampleBot sampleEnded (0, 0) 1 3 (4, 4) (196, 196)
    (["As", "Kd", "2c"], []) ["9h", "Tc", "Jd"] StatePtr.nullptr ["Qc", "Qs"]
    (Or.inl rfl) rfl (by decide) (by decide)

/-- C2, as amended. Payout: with the active seat 0 or 1, a current terminal
state, and a payload that `std::stoi` reads as `d`, where `d` is not the least
`int` and the old bankroll plus `d` is an `int`, folding the clause 'A' yields a
terminal state whose deltas are `d` for the active seat and `-d` for the other
(they sum to zero), whose previous state is that of the current terminal
state, and a game info whose bankroll is the old bankroll plus `d` with clock
and round number kept; active seat, round flag, bot and log are unchanged. -/
theorem payout_A_clause {β κ : Type} (env : Env κ) (bot : Bot β κ) (r : Runner β κ)
    (leftover : String) (d : Int) (deltas : Int × Int) (previousState : StatePtr)
    (ha : r.active = 0 ∨ r.active = 1)
    (hstate : r.roundState = StatePtr.TerminalState deltas previousState)
    (hparse : stoi leftover = Except.ok d)
    (hmin : d ≠ INT_MIN)
    (hbank : inIntRange (r.gameInfo.bankroll + d)) :
    ∃ newDeltas : Int × Int,
      clauseStep env bot r ("A" ++ leftover)
        = Except.ok (Flow.next { r with
            roundState := StatePtr.TerminalState newDeltas previousState
            gameInfo :=
              { bankroll := r.gameInfo.bankroll + d
                gameClock := r.gameInfo.gameClock
                roundNum := r.gameInfo.roundNum } })
      ∧ arrayGet newDeltas r.active = Except.ok d
      ∧ arrayGet newDeltas (1 - r.active) = Except.ok (-d)
      ∧ newDeltas.1 + newDeltas.2 = 0 := by
  have hd := stoi_inIntRange leftover d hparse
  have hw := wrapInt_neg_of_ne_min d hd hmin
  have hb := wrapInt_of_inIntRange _ hbank
  refine ⟨if r.active = 0 then (d, -d) else (-d, d), ?_, ?_, ?_, ?_⟩
  · rw [clauseStep_A, caseA_eq r leftover d deltas previousState ha hstate hparse, hw, hb]
    rfl
  · rcases ha with h0 | h1
    · simp [h0, arrayGet]
    · simp [h1, arrayGet]
  · rcases ha with h0 | h1
    · simp [h0, arrayGet]
    · simp [h1, arrayGet]
  · rcases ha with h0 | h1
    · simp [h0]
    · simp [h1]

/-- Witness of C2 as amended: the clause `A-30` for seat 0 with bankroll 12. -/
theorem payout_A_clause_witness :
    stoi "-30" = Except.ok (-30) ∧
    ∃ newDeltas : Int × Int,
      clauseStep sampleEnv sampleBot sampleEnded ("A" ++ "-30")
        = Except.ok (Flow.next { sampleEnded with
            roundState := StatePtr.TerminalState newDeltas sampleRound
            gameInfo :=
              { bankroll := sampleEnded.gameInfo.bankroll + (-30)
                gameClock := sampleEnded.gameInfo.gameClock
                roundNum := sampleEnded.gameInfo.roundNum } })
      ∧ arrayGet newDeltas sampleEnded.active = Except.ok (-30)
      ∧ arrayGet newDeltas (1 - sampleEnded.active) = Except.ok (- (-30))
      ∧ newDeltas.1 + newDeltas.2 = 0 :=
  ⟨rfl, payout_A_clause sampleEnv sampleBot sampleEnded "-30" (-30) (0, 0) sampleRound
    (Or.inl rfl) rfl rfl (by decide) (by decide)⟩

/-- Counterexample to C2 as stated: the payload `-2147483648` is an integer
payload, and for it the delta of the other seat is `-2147483648` again, not
`2147483648`, which no `int` holds. -/
theorem payout_A_counterexample :
    stoi "-2147483648" = Except.ok (-2147483648)
    ∧ clauseStep sampleEnv sampleBot sampleEnded "A-2147483648"
        = Except.ok (Flow.next { sampleEnded with
            roundState := StatePtr.TerminalState (-2147483648, -2147483648) sampleRound
            gameInfo := { bankroll := -2147483636, gameClock := 90, roundNum := 1 } })
    ∧ ¬ ∃ newDeltas : Int × Int,
        clauseStep sampleEnv sampleBot sampleEnded "A-2147483648"
          = Except.ok (Flow.next { sampleEnded with
              roundState := StatePtr.TerminalState newDeltas sampleRound
              gameInfo := { bankroll := 12 + (-2147483648), gameClock := 90, roundNum := 1 } })
        ∧ arrayGet newDeltas 0 = Except.ok (-2147483648)
        ∧ arrayGet newDeltas 1 = Except.ok (- (-2147483648)) := by
  have hev : clauseStep sampleEnv sampleBot sampleEnded "A-2147483648"
        = Except.ok (Flow.next { sampleEnded with
            roundState := StatePtr.TerminalState (-2147483648, -2147483648) sampleRound
            gameInfo := { bankroll := -2147483636, gameClock := 90, roundNum := 1 } }) := by
    rfl
  refine ⟨rfl, hev, ?_⟩
  rintro ⟨newDeltas, h1, _, h3⟩
  rw [hev] at h1
  have h4 := congrArg (fun f => f.runner.roundState) (Except.ok.inj h1)
  simp only [Flow.runner, StatePtr.TerminalState.injEq] at h4
  rw [← h4.1] at h3
  simp [arrayGet] at h3

/-- C3, as amended. Backtrack followed by payout: with the active seat 0 or 1,
a current terminal state whose previous state is a round state, one or more
cards `cs` and a payload that `std::stoi` reads as `d`, where `d` is not the
least `int`, folding 'O' with `cs` and then 'A' with `d` yields a terminal state
whose deltas are `d` for the active seat and `-d` for the other and whose
previous state is the corrected round state: `cs` appended to the hand of the
seat that is not active and every other field kept. -/
theorem backtrack_then_payout {β κ : Type} (env : Env κ) (bot : Bot β κ) (r : Runner β κ)
    (deltas : Int × Int) (button street : Int) (pips stacks_ : Int × Int)
    (hands : List String × List String) (board : List String) (previousState : StatePtr)
    (cs : List String) (leftover : String) (d : Int)
    (ha : r.active = 0 ∨ r.active = 1)
    (hstate : r.roundState = StatePtr.TerminalState deltas
      (StatePtr.RoundState button street pips stacks_ hands board previousState))
    (hne : cs ≠ []) (hcomma : ∀ c ∈ cs, ',' ∉ c.data)
    (hparse : stoi leftover = Except.ok d)
    (hmin : d ≠ INT_MIN) :
    ∃ (revisedHands : List String × List String) (newDeltas : Int × Int),
      foldClauses env bot r ["O" ++ String.intercalate "," cs, "A" ++ leftover]
        = Except.ok (Flow.next { r with
            roundState :=
              (StatePtr.TerminalState newDeltas
                (StatePtr.RoundState button street pips stacks_ revisedHands board
                  previousState))
            gameInfo :=
              { bankroll := wrapInt (r.gameInfo.bankroll + d)
                gameClock := r.gameInfo.gameClock
                roundNum := r.gameInfo.roundNum } })
      ∧ arrayGet newDeltas r.active = Except.ok d
      ∧ arrayGet newDeltas (1 - r.active) = Except.ok (-d)
      ∧ arrayGet revisedHands (1 - r.active)
          = Except.map (fun hand => hand ++ cs) (arrayGet hands (1 - r.active))
      ∧ arrayGet revisedHands r.active = arrayGet hands r.active := by
  have hsplit : split ',' (String.intercalate "," cs) = cs := by
    rw [comma_eq_singleton]
    exact split_intercalate ',' cs hne hcomma
  have hd := stoi_inIntRange leftover d hparse
  have hw := wrapInt_neg_of_ne_min d hd hmin
  refine ⟨if r.active = 0 then (hands.1, hands.2 ++ cs) else (hands.1 ++ cs, hands.2),
    if r.active = 0 then (d, -d) else (-d, d), ?_, ?_, ?_, ?_, ?_⟩
  · simp only [foldClauses]
    rw [clauseStep_O, caseO_eq r _ deltas button street pips stacks_ hands board previousState
      ha hstate, hsplit]
    simp only [breakWith]
    have hA := caseA_eq
      ({ r with roundState :=
          (StatePtr.TerminalState (0, 0)
            (StatePtr.RoundState button street pips stacks_
              (if r.active = 0 then (hands.1, hands.2 ++ cs) else (hands.1 ++ cs, hands.2))
              board previousState)) } : Runner β κ)
      leftover d (0, 0) _ ha rfl hparse
    rw [clauseStep_A, hA, hw]
    rfl
  · rcases ha with h0 | h1
    · simp [h0, arrayGet]
    · simp [h1, arrayGet]
  · rcases ha with h0 | h1
    · simp [h0, arrayGet]
    · simp [h1, arrayGet]
  · rcases ha with h0 | h1
    · simp [h0, arrayGet, Except.map]
    · simp [h1, arrayGet, Except.map]
  · rcases ha with h0 | h1
    · simp [h0, arrayGet]
    · simp [h1, arrayGet]

/-- Witness of C3 as amended: `OQc,Qs` then `A-30` for seat 0 after the sample
round ended. -/
theorem backtrack_then_payout_witness :
    stoi "-30" = Except.ok (-30) ∧
    ∃ (revisedHands : List String × List String) (newDeltas : Int × Int),
      foldClauses sampleEnv sampleBot sampleEnded
          ["O" ++ String.intercalate "," ["Qc", "Qs"], "A" ++ "-30"]
        = Except.ok (Flow.next { sampleEnded with
            roundState :=
              (StatePtr.TerminalState newDeltas
                (StatePtr.RoundState 1 3 (4, 4) (196, 196) revisedHands ["9h", "Tc", "Jd"]
                  StatePtr.nullptr))
            gameInfo :=
              { bankroll := wrapInt (sampleEnded.gameInfo.bankroll + (-30))
                gameClock := sampleEnded.gameInfo.gameClock
                roundNum := sampleEnded.gameInfo.roundNum } })
      ∧ arrayGet newDeltas sampleEnded.active = Except.ok (-30)
      ∧ arrayGet newDeltas (1 - sampleEnded.active) = Except.ok (- (-30))
      ∧ arrayGet revisedHands (1 - sampleEnded.active)
          = Except.map (fun hand => hand ++ ["Qc", "Qs"])
              (arrayGet (["As", "Kd", "2c"], []) (1 - sampleEnded.active))
      ∧ arrayGet revisedHands sampleEnded.active
          = arrayGet (["As", "Kd", "2c"], []) sampleEnded.active :=
  ⟨rfl, backtrack_then_payout sampleEnv sampleBot sampleEnded (0, 0) 1 3 (4, 4) (196, 196)
    (["As", "Kd", "2c"], []) ["9h", "Tc", "Jd"] StatePtr.nullptr ["Qc", "Qs"] "-30" (-30)
    (Or.inl rfl) rfl (by decide) (by decide) rfl (by decide)⟩

/-- Counterexample to C3 as stated: after `OQc,Qs` the clause `A-2147483648`
leaves the deltas (-2147483648, -2147483648); the delta of the other seat is
not `2147483648`. The correction made by 'O' is kept. -/
theorem backtrack_then_payout_counterexample :
    foldClauses sampleEnv sampleBot sampleEnded ["OQc,Qs", "A-2147483648"]
        = Except.ok (Flow.next { sampleEnded with
            roundState :=
              (StatePtr.TerminalState (-2147483648, -2147483648)
                (StatePtr.RoundState 1 3 (4, 4) (196, 196) (["As", "Kd", "2c"], ["Qc", "Qs"])
                  ["9h", "Tc", "Jd"] StatePtr.nullptr))
            gameInfo := { bankroll := -2147483636, gameClock := 90, roundNum := 1 } })
    ∧ ¬ ∃ (r1 : Runner Nat Int) (previousState : StatePtr),
        foldClauses sampleEnv sampleBot sampleEnded ["OQc,Qs", "A-2147483648"]
          = Except.ok (Flow.next r1)
        ∧ r1.roundState
            = StatePtr.TerminalState (-2147483648, - (-2147483648)) previousState := by
  have hev : foldClauses sampleEnv sampleBot sampleEnded ["OQc,Qs", "A-2147483648"]
        = Except.ok (Flow.next { sampleEnded with
            roundState :=
              (StatePtr.TerminalState (-2147483648, -2147483648)
                (StatePtr.RoundState 1 3 (4, 4) (196, 196) (["As", "Kd", "2c"], ["Qc", "Qs"])
                  ["9h", "Tc", "Jd"] StatePtr.nullptr))
            gameInfo := { bankroll := -2147483636, gameClock := 90, roundNum := 1 } }) := by
    rfl
  refine ⟨hev, ?_⟩
  rintro ⟨r1, previousState, h1, h2⟩
  rw [hev] at h1
  have h4 := congrArg (fun f => f.runner.roundState) (Except.ok.inj h1)
  simp only [Flow.runner] at h4
  rw [← h4] at h2
  simp at h2

/-! ## The clauses 'H' and 'G' -/

/-- The round state that case 'H' builds for the active seat `a` and three cards. -/
theorem caseH_eq {β κ : Type} (env : Env κ) (r : Runner β κ) (c1 c2 c3 : String)
    (ha : r.active = 0 ∨ r.active = 1)
    (hcomma : ∀ c ∈ [c1, c2, c3], ',' ∉ c.data) :
    caseH env r (String.intercalate "," [c1, c2, c3]) = Except.ok { r with roundState :=
      (StatePtr.RoundState 0 0 (env.SMALL_BLIND, env.BIG_BLIND)
        (wrapInt (env.STARTING_STACK - env.SMALL_BLIND),
         wrapInt (env.STARTING_STACK - env.BIG_BLIND))
        (if r.active = 0 then ([c1, c2, c3], []) else ([], [c1, c2, c3]))
        [] StatePtr.nullptr) } := by
  have hsplit : split ',' (String.intercalate "," [c1, c2, c3]) = [c1, c2, c3] := by
    rw [comma_eq_singleton]
    exact split_intercalate ',' _ (by simp) hcomma
  rcases ha with h0 | h1
  · simp [caseH, hsplit, h0, arraySet]
  · simp [caseH, hsplit, h1, arraySet]

/-- C6. New hand: with the active seat 0 or 1, a payload of three
comma-separated cards and constants whose differences `STARTING_STACK -
SMALL_BLIND` and `STARTING_STACK - BIG_BLIND` are values of `int`, folding 'H'
from any state yields a round state with button 0, street 0, pips
(SMALL_BLIND, BIG_BLIND), stacks (STARTING_STACK - SMALL_BLIND,
STARTING_STACK - BIG_BLIND), the three cards as the hand of the active seat,
an empty hand for the other seat, an empty board and a null previous state;
so pips plus stacks is STARTING_STACK for each seat. -/
theorem new_hand_H_clause {β κ : Type} (env : Env κ) (bot : Bot β κ) (r : Runner β κ)
    (c1 c2 c3 : String)
    (ha : r.active = 0 ∨ r.active = 1)
    (hcomma : ∀ c ∈ [c1, c2, c3], ',' ∉ c.data)
    (hsmall : inIntRange (env.STARTING_STACK - env.SMALL_BLIND))
    (hbig : inIntRange (env.STARTING_STACK - env.BIG_BLIND)) :
    ∃ (pips stacks_ : Int × Int) (hands : List String × List String),
      clauseStep env bot r ("H" ++ String.intercalate "," [c1, c2, c3])
        = Except.ok (Flow.next { r with roundState :=
            (StatePtr.RoundState 0 0 pips stacks_ hands [] StatePtr.nullptr) })
      ∧ pips = (env.SMALL_BLIND, env.BIG_BLIND)
      ∧ stacks_ = (env.STARTING_STACK - env.SMALL_BLIND, env.STARTING_STACK - env.BIG_BLIND)
      ∧ arrayGet hands r.active = Except.ok [c1, c2, c3]
      ∧ arrayGet hands (1 - r.active) = Except.ok []
      ∧ pips.1 + stacks_.1 = env.STARTING_STACK
      ∧ pips.2 + stacks_.2 = env.STARTING_STACK := by
  refine ⟨(env.SMALL_BLIND, env.BIG_BLIND),
    (env.STARTING_STACK - env.SMALL_BLIND, env.STARTING_STACK - env.BIG_BLIND),
    if r.active = 0 then ([c1, c2, c3], []) else ([], [c1, c2, c3]), ?_, rfl, rfl, ?_, ?_, ?_, ?_⟩
  · rw [clauseStep_H, caseH_eq env r c1 c2 c3 ha hcomma, wrapInt_of_inIntRange _ hsmall,
      wrapInt_of_inIntRange _ hbig]
    rfl
  · rcases ha with h0 | h1
    · simp [h0, arrayGet]
    · simp [h1, arrayGet]
  · rcases ha with h0 | h1
    · simp [h0, arrayGet]
    · simp [h1, arrayGet]
  · simp
  · simp

/-- Witness of C6: the clause `HAs,Kd,2c` for seat 0 after the sample round
ended, with blinds 1 and 2 and starting stack 200. -/
theorem new_hand_H_clause_witness :
    ∃ (pips stacks_ : Int × Int) (hands : List String × List String),
      clauseStep sampleEnv sampleBot sampleEnded ("H" ++ String.intercalate "," ["As", "Kd", "2c"])
        = Except.ok (Flow.next { sampleEnded with roundState :=
            (StatePtr.RoundState 0 0 pips stacks_ hands [] StatePtr.nullptr) })
      ∧ pips = (sampleEnv.SMALL_BLIND, sampleEnv.BIG_BLIND)
      ∧ stacks_ = (sampleEnv.STARTING_STACK - sampleEnv.SMALL_BLIND,
          sampleEnv.STARTING_STACK - sampleEnv.BIG_BLIND)
      ∧ arrayGet hands sampleEnded.active = Except.ok ["As", "Kd", "2c"]
      ∧ arrayGet hands (1 - sampleEnded.active) = Except.ok []
      ∧ pips.1 + stacks_.1 = sampleEnv.STARTING_STACK
      ∧ pips.2 + stacks_.2 = sampleEnv.STARTING_STACK :=
  new_hand_H_clause sampleEnv sampleBot sampleEnded "As" "Kd" "2c" (Or.inl rfl) (by decide)
    (by decide) (by decide)

theorem newRoundCalls_append {κ : Type} (l1 l2 : List (Event κ)) :
    newRoundCalls (l1 ++ l2) = newRoundCalls l1 ++ newRoundCalls l2 := by
  simp [newRoundCalls]

theorem newRoundCalls_call {κ : Type} (g : GameInfo κ) (s : StatePtr) (a : Int) :
    newRoundCalls [Event.handleNewRound g s a] = [Event.handleNewRound g s a] := rfl

theorem agree_refl {β κ : Type} (r : Runner β κ) : Agree r r :=
  ⟨rfl, rfl, rfl, rfl, rfl⟩

theorem caseT_agree {β β' κ : Type} (env : Env κ) (r : Runner β κ) (r' : Runner β' κ)
    (leftover : String) (h : Agree r r') :
    ExceptAgree (caseT env r leftover) (caseT env r' leftover) := by
  obtain ⟨hg, hs, ha, hf, hl⟩ := h
  unfold caseT
  cases env.stof leftover <;> simp [ExceptAgree, Agree, *]

theorem caseP_agree {β β' κ : Type} (r : Runner β κ) (r' : Runner β' κ)
    (leftover : String) (h : Agree r r') :
    ExceptAgree (caseP r leftover) (caseP r' leftover) := by
  obtain ⟨hg, hs, ha, hf, hl⟩ := h
  unfold caseP
  cases stoi leftover <;> simp [ExceptAgree, Agree, *]

theorem caseH_agree {β β' κ : Type} (env : Env κ) (r : Runner β κ) (r' : Runner β' κ)
    (leftover : String) (h : Agree r r') :
    ExceptAgree (caseH env r leftover) (caseH env r' leftover) := by
  obtain ⟨hg, hs, ha, hf, hl⟩ := h
  unfold caseH
  rw [ha]
  split
  · cases arraySet (([], []) : List String × List String) r'.active _ <;>
      simp [ExceptAgree, Agree, *]
  · simp [ExceptAgree]

theorem caseG_agree {β β' κ : Type} (bot : Bot β κ) (bot' : Bot β' κ) (r : Runner β κ)
    (r' : Runner β' κ) (h : Agree r r') :
    ExceptAgree (caseG bot r) (caseG bot' r') := by
  obtain ⟨hg, hs, ha, hf, hl⟩ := h
  unfold caseG
  rw [hs, hf]
  cases r'.roundState with
  | nullptr => simp [ExceptAgree]
  | TerminalState _ _ => simp [ExceptAgree]
  | RoundState _ _ _ _ _ _ _ =>
    cases r'.roundFlag <;> simp [ExceptAgree, Agree, newRoundCalls_append, *]

theorem applyProceed_agree {β β' κ : Type} (env : Env κ) (r : Runner β κ) (r' : Runner β' κ)
    (a : Action) (h : Agree r r') :
    ExceptAgree (applyProceed env r a) (applyProceed env r' a) := by
  obtain ⟨hg, hs, ha, hf, hl⟩ := h
  unfold applyProceed
  rw [hs]
  cases r'.roundState <;> simp [ExceptAgree, Agree, *]

theorem caseD_agree {β β' κ : Type} (env : Env κ) (r : Runner β κ) (r' : Runner β' κ)
    (leftover : String) (h : Agree r r') :
    ExceptAgree (caseD env r leftover) (caseD env r' leftover) := by
  unfold caseD
  cases stoi leftover with
  | error e => simp [ExceptAgree]
  | ok n => exact applyProceed_agree env r r' _ h

theorem caseR_agree {β β' κ : Type} (env : Env κ) (r : Runner β κ) (r' : Runner β' κ)
    (leftover : String) (h : Agree r r') :
    ExceptAgree (caseR env r leftover) (caseR env r' leftover) := by
  unfold caseR
  cases stoi leftover with
  | error e => simp [ExceptAgree]
  | ok n => exact applyProceed_agree env r r' _ h

theorem caseB_agree {β β' κ : Type} (r : Runner β κ) (r' : Runner β' κ)
    (leftover : String) (h : Agree r r') :
    ExceptAgree (caseB r leftover) (caseB r' leftover) := by
  obtain ⟨hg, hs, ha, hf, hl⟩ := h
  unfold caseB
  rw [hs]
  cases r'.roundState <;> simp [ExceptAgree, Agree, *]

theorem caseO_agree {β β' κ : Type} (r : Runner β κ) (r' : Runner β' κ)
    (leftover : String) (h : Agree r r') :
    ExceptAgree (caseO r leftover) (caseO r' leftover) := by
  obtain ⟨hg, hs, ha, hf, hl⟩ := h
  unfold caseO
  rw [hs, ha]
  cases r'.roundState with
  | nullptr => simp [ExceptAgree]
  | RoundState _ _ _ _ _ _ _ => simp [ExceptAgree]
  | TerminalState _ prev =>
    cases prev with
    | nullptr => simp [ExceptAgree]
    | TerminalState _ _ => simp [ExceptAgree]
    | RoundState button street pips stacks_ hands board previousState =>
      dsimp only
      cases arrayGet hands (wrapInt (1 - r'.active)) with
      | error e => simp [ExceptAgree]
      | ok hand =>
        dsimp only
        cases arraySet hands (wrapInt (1 - r'.active)) (hand ++ split ',' leftover) <;>
          simp [ExceptAgree, Agree, *]

theorem caseA_agree {β β' κ : Type} (r : Runner β κ) (r' : Runner β' κ)
    (leftover : String) (h : Agree r r') :
    ExceptAgree (caseA r leftover) (caseA r' leftover) := by
  obtain ⟨hg, hs, ha, hf, hl⟩ := h
  unfold caseA
  rw [hs, ha, hg]
  cases stoi leftover with
  | error e => simp [ExceptAgree]
  | ok delta =>
    dsimp only
    cases arraySet ((0, 0) : Int × Int) r'.active delta with
    | error e => simp [ExceptAgree]
    | ok deltas1 =>
      dsimp only
      cases arraySet deltas1 (wrapInt (1 - r'.active)) (wrapInt (-1 * delta)) with
      | error e => simp [ExceptAgree]
      | ok deltas =>
        dsimp only
        cases r'.roundState <;> simp [ExceptAgree, Agree, *]

theorem breakWith_agree {β β' κ : Type} (x : Except Fault (Runner β κ))
    (y : Except Fault (Runner β' κ)) (h : ExceptAgree x y) :
    FlowAgree (breakWith x) (breakWith y) := by
  cases x <;> cases y <;> simp_all [ExceptAgree, FlowAgree, breakWith]

theorem ite_flowAgree {β β' κ : Type} {c : Prop} [Decidable c]
    {a b : Except Fault (Flow (Runner β κ))} {a' b' : Except Fault (Flow (Runner β' κ))}
    (h1 : FlowAgree a a') (h2 : FlowAgree b b') :
    FlowAgree (if c then a else b) (if c then a' else b') := by
  split <;> assumption

/-- A clause takes runners that agree to results that agree, whatever the bots. -/
theorem clauseStep_agree {β β' κ : Type} (env : Env κ) (bot : Bot β κ) (bot' : Bot β' κ)
    (r : Runner β κ) (r' : Runner β' κ) (clause : String) (h : Agree r r') :
    FlowAgree (clauseStep env bot r clause) (clauseStep env bot' r' clause) := by
  unfold clauseStep
  cases clause.data with
  | nil => simp [FlowAgree]
  | cons tag rest =>
    dsimp only
    repeat' first
      | exact breakWith_agree _ _ (caseT_agree env r r' _ h)
      | exact breakWith_agree _ _ (caseP_agree r r' _ h)
      | exact breakWith_agree _ _ (caseH_agree env r r' _ h)
      | exact breakWith_agree _ _ (caseG_agree bot bot' r r' h)
      | exact breakWith_agree _ _ (applyProceed_agree env r r' _ h)
      | exact breakWith_agree _ _ (caseD_agree env r r' _ h)
      | exact breakWith_agree _ _ (caseR_agree env r r' _ h)
      | exact breakWith_agree _ _ (caseB_agree r r' _ h)
      | exact breakWith_agree _ _ (caseO_agree r r' _ h)
      | exact breakWith_agree _ _ (caseA_agree r r' _ h)
      | exact h
      | apply ite_flowAgree

theorem foldClauses_agree {β β' κ : Type} (env : Env κ) (bot : Bot β κ) (bot' : Bot β' κ)
    (packet : List String) (r : Runner β κ) (r' : Runner β' κ) (h : Agree r r') :
    FlowAgree (foldClauses env bot r packet) (foldClauses env bot' r' packet) := by
  induction packet generalizing r r' with
  | nil => exact h
  | cons c cs ih =>
    have hc := clauseStep_agree env bot bot' r r' c h
    unfold foldClauses
    cases h1 : clauseStep env bot r c with
    | error e =>
      cases h2 : clauseStep env bot' r' c with
      | error e' => simpa [h1, h2, FlowAgree] using hc
      | ok f' => simp [h1, h2, FlowAgree] at hc
    | ok f =>
      cases h2 : clauseStep env bot' r' c with
      | error e' => cases f <;> simp [h1, h2, FlowAgree] at hc
      | ok f' =>
        cases f with
        | returned r1 =>
          cases f' with
          | returned r1' => simpa [h1, h2, FlowAgree] using hc
          | next r1' => simp [h1, h2, FlowAgree] at hc
        | next r1 =>
          cases f' with
          | returned r1' => simp [h1, h2, FlowAgree] at hc
          | next r1' =>
            have hr : Agree r1 r1' := by simpa [h1, h2, FlowAgree] using hc
            exact ih r1 r1' hr

theorem foldClauses_append {β κ : Type} (env : Env κ) (bot : Bot β κ) (p q : List String)
    (r : Runner β κ) :
    foldClauses env bot r (p ++ q) =
      match foldClauses env bot r p with
      | Except.error e => Except.error e
      | Except.ok (Flow.returned r1) => Except.ok (Flow.returned r1)
      | Except.ok (Flow.next r1) => foldClauses env bot r1 q := by
  induction p generalizing r with
  | nil => simp [foldClauses]
  | cons c cs ih =>
    simp only [List.cons_append, foldClauses]
    cases clauseStep env bot r c with
    | error e => rfl
    | ok f =>
      cases f with
      | returned r1 => rfl
      | next r1 => exact ih r1

/-- The answer sent after a packet changes nothing that the clauses rebuild. -/
theorem respond_agree {β κ : Type} (bot : Bot β κ) (r : Runner β κ) :
    Agree (respond bot r) r := by
  unfold respond
  split <;> simp [Agree, newRoundCalls]

theorem agree_trans {β β' β'' κ : Type} {r : Runner β κ} {r' : Runner β' κ}
    {r'' : Runner β'' κ} (h1 : Agree r r') (h2 : Agree r' r'') : Agree r r'' :=
  ⟨h1.1.trans h2.1, h1.2.1.trans h2.2.1, h1.2.2.1.trans h2.2.2.1,
    h1.2.2.2.1.trans h2.2.2.2.1, h1.2.2.2.2.trans h2.2.2.2.2⟩

/-- A run over packets agrees with one fold over all their clauses in order:
the answers sent between packets change nothing that the clauses rebuild. -/
theorem runPackets_agree {β β' κ : Type} (env : Env κ) (bot : Bot β κ) (bot' : Bot β' κ)
    (packets : List (List String)) (r : Runner β κ) (r' : Runner β' κ) (h : Agree r r') :
    FlowAgree (runPackets env bot r packets) (foldClauses env bot' r' packets.flatten) := by
  induction packets generalizing r r' with
  | nil => exact h
  | cons p ps ih =>
    have hp := foldClauses_agree env bot bot' p r r' h
    rw [List.flatten_cons, foldClauses_append]
    unfold runPackets packetStep
    cases h1 : foldClauses env bot r p with
    | error e =>
      cases h2 : foldClauses env bot' r' p with
      | error e' => simpa [h1, h2, FlowAgree] using hp
      | ok f' => simp [h1, h2, FlowAgree] at hp
    | ok f =>
      cases h2 : foldClauses env bot' r' p with
      | error e' => cases f <;> simp [h1, h2, FlowAgree] at hp
      | ok f' =>
        cases f with
        | returned r1 =>
          cases f' with
          | returned r1' => simpa [h1, h2, FlowAgree] using hp
          | next r1' => simp [h1, h2, FlowAgree] at hp
        | next r1 =>
          cases f' with
          | returned r1' => simp [h1, h2, FlowAgree] at hp
          | next r1' =>
            have hr : Agree r1 r1' := by simpa [h1, h2, FlowAgree] using hp
            exact ih (respond bot r1) r1' (agree_trans (respond_agree bot r1) hr)

theorem flowAgree_next {β β' κ : Type} (x : Except Fault (Flow (Runner β κ)))
    (r' : Runner β' κ) (h : FlowAgree x (Except.ok (Flow.next r'))) :
    ∃ r : Runner β κ, x = Except.ok (Flow.next r) ∧ Agree r r' := by
  cases x with
  | error e => simp [FlowAgree] at h
  | ok f =>
    cases f with
    | returned r => simp [FlowAgree] at h
    | next r => exact ⟨r, rfl, h⟩

/-! ## The round-start callback -/

/-- Folding `n` clauses 'G' on a round state: the state is kept, the flag is
cleared by the first of them, which is the only one to invoke `handleNewRound`. -/
theorem foldClauses_G {β κ : Type} (env : Env κ) (bot : Bot β κ) (n : Nat) (r : Runner β κ)
    (button street : Int) (pips stacks_ : Int × Int) (hands : List String × List String)
    (board : List String) (previousState : StatePtr)
    (hs : r.roundState
      = StatePtr.RoundState button street pips stacks_ hands board previousState) :
    ∃ rn : Runner β κ,
      foldClauses env bot r (List.replicate n "G") = Except.ok (Flow.next rn)
      ∧ rn.gameInfo = r.gameInfo ∧ rn.roundState = r.roundState ∧ rn.active = r.active
      ∧ rn.roundFlag = (r.roundFlag && decide (n = 0))
      ∧ newRoundCalls rn.log = newRoundCalls r.log ++
          (if r.roundFlag = true ∧ n ≠ 0 then
            [Event.handleNewRound r.gameInfo r.roundState r.active]
           else []) := by
  induction n generalizing r with
  | zero => exact ⟨r, rfl, rfl, rfl, rfl, by simp, by simp⟩
  | succ n ih =>
    cases hf : r.roundFlag with
    | false =>
      have hG : caseG bot r = Except.ok { r with roundState := r.roundState } := by
        simp [caseG, hs, hf]
      obtain ⟨rn, h1, h2, h3, h4, h5, h6⟩ := ih { r with roundState := r.roundState } hs
      refine ⟨rn, ?_, h2, h3, h4, ?_, ?_⟩
      · simp only [List.replicate_succ, foldClauses, clauseStep_G, hG, breakWith]
        exact h1
      · simp [h5, hf]
      · simp [h6, hf]
    | true =>
      have hG : caseG bot r = Except.ok { r with
          roundState := r.roundState
          pokerbot := bot.handleNewRound r.pokerbot r.gameInfo r.roundState r.active
          roundFlag := false
          log := r.log ++ [Event.handleNewRound r.gameInfo r.roundState r.active] } := by
        simp [caseG, hs, hf]
      obtain ⟨rn, h1, h2, h3, h4, h5, h6⟩ := ih { r with
          roundState := r.roundState
          pokerbot := bot.handleNewRound r.pokerbot r.gameInfo r.roundState r.active
          roundFlag := false
          log := r.log ++ [Event.handleNewRound r.gameInfo r.roundState r.active] } hs
      refine ⟨rn, ?_, h2, h3, h4, ?_, ?_⟩
      · simp only [List.replicate_succ, foldClauses, clauseStep_G, hG, breakWith]
        exact h1
      · simp [h5]
      · rw [h6]
        simp [newRoundCalls_append, newRoundCalls_call]

/-- The bot state after `n` clauses 'G' on a round state: `handleNewRound` is
applied once, by the first of them, when the flag is set, and never otherwise. -/
theorem foldClauses_G_pokerbot {β κ : Type} (env : Env κ) (bot : Bot β κ) (n : Nat)
    (r rn : Runner β κ)
    (button street : Int) (pips stacks_ : Int × Int) (hands : List String × List String)
    (board : List String) (previousState : StatePtr)
    (hs : r.roundState
      = StatePtr.RoundState button street pips stacks_ hands board previousState)
    (h : foldClauses env bot r (List.replicate n "G") = Except.ok (Flow.next rn)) :
    rn.pokerbot =
      (if r.roundFlag = true ∧ n ≠ 0 then
        bot.handleNewRound r.pokerbot r.gameInfo r.roundState r.active
       else r.pokerbot) := by
  induction n generalizing r with
  | zero =>
    simp only [List.replicate_zero, foldClauses] at h
    have e : r = rn := Flow.next.inj (Except.ok.inj h)
    rw [← e]
    simp
  | succ n ih =>
    cases hf : r.roundFlag with
    | false =>
      have hG : caseG bot r = Except.ok { r with roundState := r.roundState } := by
        simp [caseG, hs, hf]
      simp only [List.replicate_succ, foldClauses, clauseStep_G, hG, breakWith] at h
      have h1 := ih { r with roundState := r.roundState } hs h
      rw [h1]
      simp [hf]
    | true =>
      have hG : caseG bot r = Except.ok { r with
          roundState := r.roundState
          pokerbot := bot.handleNewRound r.pokerbot r.gameInfo r.roundState r.active
          roundFlag := false
          log := r.log ++ [Event.handleNewRound r.gameInfo r.roundState r.active] } := by
        simp [caseG, hs, hf]
      simp only [List.replicate_succ, foldClauses, clauseStep_G, hG, breakWith] at h
      have h1 := ih { r with
          roundState := r.roundState
          pokerbot := bot.handleNewRound r.pokerbot r.gameInfo r.roundState r.active
          roundFlag := false
          log := r.log ++ [Event.handleNewRound r.gameInfo r.roundState r.active] } hs h
      rw [h1]
      simp

/-! ## The round flag is never set again -/

theorem flagStep_refl {β κ : Type} (r : Runner β κ) : FlagStep r r :=
  Or.inl ⟨rfl, rfl⟩

theorem flagStep_of_frame {β κ : Type} {r r1 : Runner β κ}
    (h : r1.roundFlag = r.roundFlag ∧ r1.log = r.log) : FlagStep r r1 :=
  Or.inl ⟨h.1, by rw [h.2]⟩

theorem flagStep_trans {β κ : Type} {r r1 r2 : Runner β κ} (h1 : FlagStep r r1)
    (h2 : FlagStep r1 r2) : FlagStep r r2 := by
  rcases h1 with ⟨f1, c1⟩ | ⟨f1, g1, call, c1⟩
  · rcases h2 with ⟨f2, c2⟩ | ⟨f2, g2, call, c2⟩
    · exact Or.inl ⟨f2.trans f1, c2.trans c1⟩
    · exact Or.inr ⟨f1 ▸ f2, g2, call, by rw [c2, c1]⟩
  · rcases h2 with ⟨f2, c2⟩ | ⟨f2, g2, call2, c2⟩
    · exact Or.inr ⟨f1, f2.trans g1, call, by rw [c2, c1]⟩
    · rw [g1] at f2
      exact absurd f2 (by simp)

theorem caseT_frame {β κ : Type} (env : Env κ) (r r1 : Runner β κ) (leftover : String)
    (h : caseT env r leftover = Except.ok r1) :
    r1.roundFlag = r.roundFlag ∧ r1.log = r.log := by
  unfold caseT at h
  cases hx : env.stof leftover with
  | error e => simp [hx] at h
  | ok v =>
    simp only [hx] at h
    rw [← Except.ok.inj h]
    exact ⟨rfl, rfl⟩

theorem caseP_frame {β κ : Type} (r r1 : Runner β κ) (leftover : String)
    (h : caseP r leftover = Except.ok r1) :
    r1.roundFlag = r.roundFlag ∧ r1.log = r.log := by
  unfold caseP at h
  cases hx : stoi leftover with
  | error e => simp [hx] at h
  | ok v =>
    simp only [hx] at h
    rw [← Except.ok.inj h]
    exact ⟨rfl, rfl⟩

theorem caseH_frame {β κ : Type} (env : Env κ) (r r1 : Runner β κ) (leftover : String)
    (h : caseH env r leftover = Except.ok r1) :
    r1.roundFlag = r.roundFlag ∧ r1.log = r.log := by
  unfold caseH at h
  split at h
  · rename_i c0 c1 c2 _ _
    cases hx : arraySet (([], []) : List String × List String) r.active [c0, c1, c2] with
    | error e => simp [hx] at h
    | ok v =>
      simp only [hx] at h
      rw [← Except.ok.inj h]
      exact ⟨rfl, rfl⟩
  · simp at h

theorem applyProceed_frame {β κ : Type} (env : Env κ) (r r1 : Runner β κ) (a : Action)
    (h : applyProceed env r a = Except.ok r1) :
    r1.roundFlag = r.roundFlag ∧ r1.log = r.log := by
  unfold applyProceed at h
  split at h
  · rw [← Except.ok.inj h]
    exact ⟨rfl, rfl⟩
  · simp at h

theorem caseD_frame {β κ : Type} (env : Env κ) (r r1 : Runner β κ) (leftover : String)
    (h : caseD env r leftover = Except.ok r1) :
    r1.roundFlag = r.roundFlag ∧ r1.log = r.log := by
  unfold caseD at h
  cases hx : stoi leftover with
  | error e => simp [hx] at h
  | ok v =>
    simp only [hx] at h
    exact applyProceed_frame env r r1 _ h

theorem caseR_frame {β κ : Type} (env : Env κ) (r r1 : Runner β κ) (leftover : String)
    (h : caseR env r leftover = Except.ok r1) :
    r1.roundFlag = r.roundFlag ∧ r1.log = r.log := by
  unfold caseR at h
  cases hx : stoi leftover with
  | error e => simp [hx] at h
  | ok v =>
    simp only [hx] at h
    exact applyProceed_frame env r r1 _ h

theorem caseB_frame {β κ : Type} (r r1 : Runner β κ) (leftover : String)
    (h : caseB r leftover = Except.ok r1) :
    r1.roundFlag = r.roundFlag ∧ r1.log = r.log := by
  unfold caseB at h
  split at h
  · rw [← Except.ok.inj h]
    exact ⟨rfl, rfl⟩
  · simp at h

theorem caseO_frame {β κ : Type} (r r1 : Runner β κ) (leftover : String)
    (h : caseO r leftover = Except.ok r1) :
    r1.roundFlag = r.roundFlag ∧ r1.log = r.log := by
  unfold caseO at h
  split at h
  · split at h
    · simp at h
    · split at h
      · simp at h
      · rw [← Except.ok.inj h]
        exact ⟨rfl, rfl⟩
  · simp at h

theorem caseA_frame {β κ : Type} (r r1 : Runner β κ) (leftover : String)
    (h : caseA r leftover = Except.ok r1) :
    r1.roundFlag = r.roundFlag ∧ r1.log = r.log := by
  unfold caseA at h
  split at h
  · simp at h
  · split at h
    · simp at h
    · split at h
      · simp at h
      · split at h
        · rw [← Except.ok.inj h]
          exact ⟨rfl, rfl⟩
        · simp at h

theorem caseG_flagStep {β κ : Type} (bot : Bot β κ) (r r1 : Runner β κ)
    (h : caseG bot r = Except.ok r1) : FlagStep r r1 := by
  unfold caseG at h
  split at h
  · cases hf : r.roundFlag with
    | false =>
      simp only [hf] at h
      rw [← Except.ok.inj h]
      exact Or.inl ⟨hf.symm, rfl⟩
    | true =>
      simp only [hf, if_true] at h
      rw [← Except.ok.inj h]
      exact Or.inr ⟨hf, rfl, _, by rw [newRoundCalls_append, newRoundCalls_call]⟩
  · simp at h

theorem breakWith_ok {ρ : Type} (x : Except Fault ρ) (f : Flow ρ)
    (h : breakWith x = Except.ok f) : x = Except.ok f.runner := by
  cases x with
  | error e => simp [breakWith] at h
  | ok r =>
    simp only [breakWith] at h
    rw [← Except.ok.inj h]
    rfl

theorem ite_flagStep {α : Type} {P : α → Prop} {c : Prop} [Decidable c] {a b : α}
    (ha : P a) (hb : P b) : P (if c then a else b) := by
  split <;> assumption

/-- No clause sets the round flag; only 'G' clears it, adding one invocation. -/
theorem clauseStep_flagStep {β κ : Type} (env : Env κ) (bot : Bot β κ) (r : Runner β κ)
    (clause : String) (f : Flow (Runner β κ))
    (h : clauseStep env bot r clause = Except.ok f) : FlagStep r f.runner := by
  revert h
  unfold clauseStep
  cases clause.data with
  | nil => simp
  | cons tag rest =>
    dsimp only
    repeat' first
      | exact fun h => flagStep_of_frame (caseT_frame env r _ _ (breakWith_ok _ _ h))
      | exact fun h => flagStep_of_frame (caseP_frame r _ _ (breakWith_ok _ _ h))
      | exact fun h => flagStep_of_frame (caseH_frame env r _ _ (breakWith_ok _ _ h))
      | exact fun h => caseG_flagStep bot r _ (breakWith_ok _ _ h)
      | exact fun h => flagStep_of_frame (applyProceed_frame env r _ _ (breakWith_ok _ _ h))
      | exact fun h => flagStep_of_frame (caseD_frame env r _ _ (breakWith_ok _ _ h))
      | exact fun h => flagStep_of_frame (caseR_frame env r _ _ (breakWith_ok _ _ h))
      | exact fun h => flagStep_of_frame (caseB_frame r _ _ (breakWith_ok _ _ h))
      | exact fun h => flagStep_of_frame (caseO_frame r _ _ (breakWith_ok _ _ h))
      | exact fun h => flagStep_of_frame (caseA_frame r _ _ (breakWith_ok _ _ h))
      | exact fun h => (Except.ok.inj h) ▸ flagStep_refl r
      | apply ite_flagStep (P := fun x => x = Except.ok f → FlagStep r f.runner)

theorem foldClauses_flagStep {β κ : Type} (env : Env κ) (bot : Bot β κ)
    (packet : List String) (r : Runner β κ) (f : Flow (Runner β κ))
    (h : foldClauses env bot r packet = Except.ok f) : FlagStep r f.runner := by
  induction packet generalizing r with
  | nil =>
    simp only [foldClauses] at h
    rw [← Except.ok.inj h]
    exact flagStep_refl r
  | cons c cs ih =>
    unfold foldClauses at h
    cases hc : clauseStep env bot r c with
    | error e => simp [hc] at h
    | ok f1 =>
      have h1 := clauseStep_flagStep env bot r c f1 hc
      cases f1 with
      | returned r1 =>
        simp only [hc] at h
        rw [← Except.ok.inj h]
        exact h1
      | next r1 =>
        simp only [hc] at h
        exact flagStep_trans h1 (ih r1 h)

theorem respond_flagStep {β κ : Type} (bot : Bot β κ) (r : Runner β κ) :
    FlagStep r (respond bot r) :=
  Or.inl ⟨(respond_agree bot r).2.2.2.1, (respond_agree bot r).2.2.2.2⟩

theorem runPackets_flagStep {β κ : Type} (env : Env κ) (bot : Bot β κ)
    (packets : List (List String)) (r : Runner β κ) (f : Flow (Runner β κ))
    (h : runPackets env bot r packets = Except.ok f) : FlagStep r f.runner := by
  induction packets generalizing r with
  | nil =>
    simp only [runPackets] at h
    rw [← Except.ok.inj h]
    exact flagStep_refl r
  | cons p ps ih =>
    unfold runPackets packetStep at h
    cases hp : foldClauses env bot r p with
    | error e => simp [hp] at h
    | ok f1 =>
      have h1 := foldClauses_flagStep env bot p r f1 hp
      cases f1 with
      | returned r1 =>
        simp only [hp] at h
        rw [← Except.ok.inj h]
        exact h1
      | next r1 =>
        simp only [hp] at h
        exact flagStep_trans (flagStep_trans h1 (respond_flagStep bot r1)) (ih (respond bot r1) h)

/-! ## The answer sent after a line -/

theorem breakWith_ne_returned {ρ : Type} (x : Except Fault ρ) (r1 : ρ) :
    breakWith x ≠ Except.ok (Flow.returned r1) := by
  cases x <;> simp [breakWith]

theorem ite_ne_of_ne {α : Type} {c : Prop} [Decidable c] {a b x : α} (ha : a ≠ x)
    (hb : b ≠ x) : (if c then a else b) ≠ x := by
  split <;> assumption

/-- Only a clause that starts with 'Q' executes `return`. -/
theorem clauseStep_returned {β κ : Type} (env : Env κ) (bot : Bot β κ) (r r1 : Runner β κ)
    (clause : String) (h : clauseStep env bot r clause = Except.ok (Flow.returned r1)) :
    clause.data.head? = some 'Q' := by
  unfold clauseStep at h
  split at h
  · exact absurd h (by simp)
  · rename_i tag rest hdata
    by_cases hQ : tag = 'Q'
    · rw [hdata, hQ]
      rfl
    · exfalso
      simp only [hQ, if_false] at h
      revert h
      repeat' first
        | exact breakWith_ne_returned _ _
        | apply ite_ne_of_ne
      simp

/-- A packet without a clause that starts with 'Q' does not execute `return`. -/
theorem foldClauses_returned {β κ : Type} (env : Env κ) (bot : Bot β κ) (packet : List String)
    (hq : ∀ clause ∈ packet, clause.data.head? ≠ some 'Q') (r r1 : Runner β κ) :
    foldClauses env bot r packet ≠ Except.ok (Flow.returned r1) := by
  induction packet generalizing r with
  | nil => simp [foldClauses]
  | cons c cs ih =>
    intro h
    unfold foldClauses at h
    split at h
    · exact absurd h (by simp)
    · rename_i r2 hstep
      exact hq c (by simp) (clauseStep_returned env bot r r2 c hstep)
    · rename_i r2 hstep
      exact ih (fun x hx => hq x (List.mem_cons_of_mem _ hx)) r2 h

theorem caseG_quiet {β κ : Type} (bot : Bot β κ) (r r1 : Runner β κ)
    (h : caseG bot r = Except.ok r1) :
    sentTexts r1.log = sentTexts r.log ∧ getActionCalls r1.log = getActionCalls r.log := by
  unfold caseG at h
  split at h
  · cases hf : r.roundFlag with
    | false =>
      simp only [hf] at h
      rw [← Except.ok.inj h]
      exact ⟨rfl, rfl⟩
    | true =>
      simp only [hf, if_true] at h
      rw [← Except.ok.inj h]
      simp [sentTexts, getActionCalls, List.filterMap_append]
  · simp at h

/-- Folding a clause writes nothing to the stream and does not ask the bot for
an action. -/
theorem clauseStep_quiet {β κ : Type} (env : Env κ) (bot : Bot β κ) (r : Runner β κ)
    (clause : String) (f : Flow (Runner β κ))
    (h : clauseStep env bot r clause = Except.ok f) :
    sentTexts f.runner.log = sentTexts r.log
      ∧ getActionCalls f.runner.log = getActionCalls r.log := by
  have hquiet : ∀ r1 : Runner β κ, r1.roundFlag = r.roundFlag ∧ r1.log = r.log →
      sentTexts r1.log = sentTexts r.log ∧ getActionCalls r1.log = getActionCalls r.log :=
    fun r1 h1 => by rw [h1.2]; exact ⟨rfl, rfl⟩
  revert h
  unfold clauseStep
  cases clause.data with
  | nil => simp
  | cons tag rest =>
    dsimp only
    repeat' first
      | exact fun h => hquiet _ (caseT_frame env r _ _ (breakWith_ok _ _ h))
      | exact fun h => hquiet _ (caseP_frame r _ _ (breakWith_ok _ _ h))
      | exact fun h => hquiet _ (caseH_frame env r _ _ (breakWith_ok _ _ h))
      | exact fun h => caseG_quiet bot r _ (breakWith_ok _ _ h)
      | exact fun h => hquiet _ (applyProceed_frame env r _ _ (breakWith_ok _ _ h))
      | exact fun h => hquiet _ (caseD_frame env r _ _ (breakWith_ok _ _ h))
      | exact fun h => hquiet _ (caseR_frame env r _ _ (breakWith_ok _ _ h))
      | exact fun h => hquiet _ (caseB_frame r _ _ (breakWith_ok _ _ h))
      | exact fun h => hquiet _ (caseO_frame r _ _ (breakWith_ok _ _ h))
      | exact fun h => hquiet _ (caseA_frame r _ _ (breakWith_ok _ _ h))
      | exact fun h => (Except.ok.inj h) ▸ ⟨rfl, rfl⟩
      | apply ite_flagStep (P := fun x => x = Except.ok f →
          sentTexts f.runner.log = sentTexts r.log
            ∧ getActionCalls f.runner.log = getActionCalls r.log)

theorem foldClauses_quiet {β κ : Type} (env : Env κ) (bot : Bot β κ)
    (packet : List String) (r : Runner β κ) (f : Flow (Runner β κ))
    (h : foldClauses env bot r packet = Except.ok f) :
    sentTexts f.runner.log = sentTexts r.log
      ∧ getActionCalls f.runner.log = getActionCalls r.log := by
  induction packet generalizing r with
  | nil =>
    simp only [foldClauses] at h
    rw [← Except.ok.inj h]
    exact ⟨rfl, rfl⟩
  | cons c cs ih =>
    unfold foldClauses at h
    cases hc : clauseStep env bot r c with
    | error e => simp [hc] at h
    | ok f1 =>
      have h1 := clauseStep_quiet env bot r c f1 hc
      cases f1 with
      | returned r1 =>
        simp only [hc] at h
        rw [← Except.ok.inj h]
        exact h1
      | next r1 =>
        simp only [hc] at h
        have h2 := ih r1 h
        exact ⟨h2.1.trans h1.1, h2.2.trans h1.2⟩

/-- C4. Send decision: for a line without a 'Q' clause whose clauses have all
been folded, folding sends nothing and does not invoke `getAction`, and the
iteration ends by sending exactly one message. If the round flag is set or
the state is a terminal state, that message is the encoding of Check followed
by a newline and `getAction` is not invoked; otherwise `getAction` is invoked
once, with the current game info, state and active seat, and the message is
the encoding of the action it returns followed by a newline. -/
theorem send_decision {β κ : Type} (env : Env κ) (bot : Bot β κ) (r : Runner β κ)
    (line : String) (flow : Flow (Runner β κ))
    (hq : ∀ clause ∈ receive line, clause.data.head? ≠ some 'Q')
    (hfold : foldClauses env bot r (receive line) = Except.ok flow) :
    ∃ r1 : Runner β κ,
      flow = Flow.next r1
      ∧ lineStep env bot r line = Except.ok (Flow.next (respond bot r1))
      ∧ sentTexts r1.log = sentTexts r.log
      ∧ getActionCalls r1.log = getActionCalls r.log
      ∧ (sentTexts (respond bot r1).log).length = (sentTexts r.log).length + 1
      ∧ (r1.roundFlag = true ∨ isTerminalState r1.roundState = true →
          respond bot r1 = { r1 with log := r1.log ++ [Event.send "K\n"] })
      ∧ (r1.roundFlag = false ∧ isTerminalState r1.roundState = false →
          respond bot r1 = { r1 with
            pokerbot := (bot.getAction r1.pokerbot r1.gameInfo r1.roundState r1.active).2
            log := r1.log ++
              [Event.getAction r1.gameInfo r1.roundState r1.active,
               Event.send
                (encode (bot.getAction r1.pokerbot r1.gameInfo r1.roundState r1.active).1
                  ++ "\n")] }) := by
  cases flow with
  | returned r2 => exact absurd hfold (foldClauses_returned env bot _ hq r r2)
  | next r1 =>
    have hquiet := foldClauses_quiet env bot _ r _ hfold
    refine ⟨r1, rfl, ?_, hquiet.1, hquiet.2, ?_, ?_, ?_⟩
    · simp [lineStep, packetStep, hfold]
    · rw [← hquiet.1]
      unfold respond
      split_ifs <;> simp [sentTexts, List.filterMap_append, Flow.runner]
    · intro h
      have hc : (r1.roundFlag || isTerminalState r1.roundState) = true := by
        rcases h with h | h <;> simp [h]
      simp only [respond, hc, if_true]
      rfl
    · rintro ⟨h1, h2⟩
      simp [respond, h1, h2, sendText]

/-- Witness of C4: the line `A-30` received after the sample round ended. -/
theorem send_decision_witness :
    ∃ r1 : Runner Nat Int,
      (Flow.next { sampleEnded with
          roundState := StatePtr.TerminalState (-30, 30) sampleRound
          gameInfo := { bankroll := -18, gameClock := 90, roundNum := 1 } }
        : Flow (Runner Nat Int)) = Flow.next r1
      ∧ lineStep sampleEnv sampleBot sampleEnded "A-30"
          = Except.ok (Flow.next (respond sampleBot r1))
      ∧ sentTexts r1.log = sentTexts sampleEnded.log
      ∧ getActionCalls r1.log = getActionCalls sampleEnded.log
      ∧ (sentTexts (respond sampleBot r1).log).length = (sentTexts sampleEnded.log).length + 1
      ∧ (r1.roundFlag = true ∨ isTerminalState r1.roundState = true →
          respond sampleBot r1 = { r1 with log := r1.log ++ [Event.send "K\n"] })
      ∧ (r1.roundFlag = false ∧ isTerminalState r1.roundState = false →
          respond sampleBot r1 = { r1 with
            pokerbot := (sampleBot.getAction r1.pokerbot r1.gameInfo r1.roundState r1.active).2
            log := r1.log ++
              [Event.getAction r1.gameInfo r1.roundState r1.active,
               Event.send
                (encode
                    (sampleBot.getAction r1.pokerbot r1.gameInfo r1.roundState r1.active).1
                  ++ "\n")] }) :=
  send_decision sampleEnv sampleBot sampleEnded "A-30" _ (by decide) rfl

/-! ## The flag over a whole session -/

/-- The round flag is never set again. For every run that does not fail, from
any runner and over any packets (whatever 'H' and 'G' clauses they hold): a
flag that is clear at the start is clear at the end and no invocation of
`handleNewRound` is added; a flag that is set at the end was set at the
start; and in every case at most one invocation is added. -/
theorem round_flag_never_reset {β κ : Type} (env : Env κ) (bot : Bot β κ) (r : Runner β κ)
    (packets : List (List String)) (f : Flow (Runner β κ))
    (hrun : runPackets env bot r packets = Except.ok f) :
    (r.roundFlag = false →
      f.runner.roundFlag = false ∧ newRoundCalls f.runner.log = newRoundCalls r.log)
    ∧ (f.runner.roundFlag = true → r.roundFlag = true)
    ∧ (newRoundCalls f.runner.log).length ≤ (newRoundCalls r.log).length + 1 := by
  rcases runPackets_flagStep env bot packets r f hrun with ⟨h1, h2⟩ | ⟨h1, h2, call, h3⟩
  · refine ⟨fun h => ⟨h1.trans h, h2⟩, fun h => h1 ▸ h, ?_⟩
    rw [h2]
    exact Nat.le_succ _
  · refine ⟨fun h => ?_, fun h => h1, ?_⟩
    · rw [h1] at h
      exact absurd h (by simp)
    · rw [h3]
      simp

/-- An instance of `round_flag_never_reset`: a new hand dealt and acknowledged
after the sample round ended, when the flag is already clear. -/
theorem round_flag_never_reset_witness :
    ∃ f : Flow (Runner Nat Int),
      runPackets sampleEnv sampleBot sampleEnded [["HQs,Qd,2h", "G"]] = Except.ok f
      ∧ (sampleEnded.roundFlag = false →
          f.runner.roundFlag = false
            ∧ newRoundCalls f.runner.log = newRoundCalls sampleEnded.log)
      ∧ (f.runner.roundFlag = true → sampleEnded.roundFlag = true)
      ∧ (newRoundCalls f.runner.log).length ≤ (newRoundCalls sampleEnded.log).length + 1 :=
  ⟨_, rfl, round_flag_never_reset sampleEnv sampleBot sampleEnded [["HQs,Qd,2h", "G"]] _ rfl⟩

/-- Two rounds with the sample bot, each an 'H' followed by a 'G':
`handleNewRound` is invoked once, for the first round only, and the flag is
still clear after the 'H' of the second round. -/
theorem round_flag_reset_counterexample :
    Option.map (fun f => newRoundCalls f.runner.log)
        (Except.toOption (runLines sampleEnv sampleBot (Runner.initial sampleEnv 0)
          ["HAs,Kd,2c G", "HQs,Qd,2h G"]))
      = some [Event.handleNewRound ({ bankroll := 0, gameClock := 0, roundNum := 1 } : GameInfo Int)
          (StatePtr.RoundState 0 0 (1, 2) (199, 198) (["As", "Kd", "2c"], []) []
            StatePtr.nullptr) 0]
    ∧ Option.map (fun f => f.runner.roundFlag)
        (Except.toOption (foldClauses sampleEnv sampleBot (Runner.initial sampleEnv 0)
          ["HAs,Kd,2c", "G", "HQs,Qd,2h"]))
      = some false := by
  decide

/-! ## Decoding a discard, encoding an action -/

/-- What case 'D' computes on a round state for a payload that `std::stoi`
reads as `n`: `proceed` is handed the action `discardAction n`. -/
theorem caseD_eq {β κ : Type} (env : Env κ) (r : Runner β κ) (leftover : String) (n : Int)
    (button street : Int) (pips stacks_ : Int × Int) (hands : List String × List String)
    (board : List String) (previousState : StatePtr)
    (hstate : r.roundState
      = StatePtr.RoundState button street pips stacks_ hands board previousState)
    (hparse : stoi leftover = Except.ok n) :
    caseD env r leftover
      = Except.ok { r with roundState := env.proceed r.roundState (discardAction n) } := by
  simp [caseD, hparse, applyProceed, hstate]

/-- The action decoded from a discard clause has card 0 and is encoded as
`D0`, whatever index the clause carries. -/
theorem encode_discardAction (n : Int) :
    (discardAction n).actionType = ActionType.DISCARD
    ∧ (discardAction n).amount = n
    ∧ (discardAction n).card = 0
    ∧ encode (discardAction n) = "D0" :=
  ⟨rfl, rfl, rfl, rfl⟩

/-- C9, the code at the clause `D1`. For every environment, bot and current
round state, folding `D1` replaces the state with `proceed` applied to a
Discard action whose `amount` is 1 and whose `card` is 0: the index went to
`amount`. Encoding that action yields `D0`, not `D1`. -/
theorem discard_decoding_at_D1 {β κ : Type} (env : Env κ) (bot : Bot β κ) (r : Runner β κ)
    (button street : Int) (pips stacks_ : Int × Int) (hands : List String × List String)
    (board : List String) (previousState : StatePtr) :
    clauseStep env bot
        { r with roundState :=
          (StatePtr.RoundState button street pips stacks_ hands board previousState) } "D1"
      = Except.ok (Flow.next { r with roundState :=
          (env.proceed
            (StatePtr.RoundState button street pips stacks_ hands board previousState)
            { actionType := ActionType.DISCARD, amount := 1, card := 0 }) })
    ∧ encode { actionType := ActionType.DISCARD, amount := 1, card := 0 } = "D0"
    ∧ encode { actionType := ActionType.DISCARD, amount := 1, card := 0 } ≠ "D1"
    ∧ encode { actionType := ActionType.DISCARD, amount := 0, card := 1 } = "D1" := by
  refine ⟨?_, rfl, by decide, rfl⟩
  have h := clauseStep_D env bot
    ({ r with roundState :=
      (StatePtr.RoundState button street pips stacks_ hands board previousState) }) "1"
  have hparse : stoi "1" = Except.ok 1 := rfl
  have hD := caseD_eq env
    ({ r with roundState :=
      (StatePtr.RoundState button street pips stacks_ hands board previousState) })
    "1" 1 button street pips stacks_ hands board previousState rfl hparse
  rw [hD] at h
  exact h

/-- C10. Action encoding: the encoder writes exactly `F` for Fold, `C` for
Call, `K` for Check, `D` followed by the decimal form of `card` for Discard
and `R` followed by the decimal form of `amount` for Raise, with nothing in
between and whatever the other fields hold; `send` writes the encoding
followed by one newline. The decimal form is that of `operator<<` on an `int`
(the digits, after a minus sign for a negative number), which `std::stoi`
reads back as the same number. -/
theorem encode_action (amount card : Int) (a : Action) :
    encode { actionType := ActionType.FOLD, amount := amount, card := card } = "F"
    ∧ encode { actionType := ActionType.CALL, amount := amount, card := card } = "C"
    ∧ encode { actionType := ActionType.CHECK, amount := amount, card := card } = "K"
    ∧ encode { actionType := ActionType.DISCARD, amount := amount, card := card }
        = "D" ++ showInt card
    ∧ encode { actionType := ActionType.RAISE, amount := amount, card := card }
        = "R" ++ showInt amount
    ∧ sendText a = encode a ++ "\n"
    ∧ (inIntRange card → stoi (showInt card) = Except.ok card)
    ∧ (inIntRange amount → stoi (showInt amount) = Except.ok amount)
    ∧ showInt 250 = "250" ∧ showInt 0 = "0" ∧ showInt (-30) = "-30"
    ∧ sendText { actionType := ActionType.RAISE, amount := 250, card := 7 } = "R250\n"
    ∧ sendText { actionType := ActionType.DISCARD, amount := 250, card := 2 } = "D2\n" := by
  refine ⟨rfl, rfl, rfl, rfl, rfl, rfl, stoi_showInt card, stoi_showInt amount,
    ?_, ?_, ?_, ?_, ?_⟩ <;> decide

/-! ## Raise, board, fold, call, check and unknown tags -/

theorem clauseStep_R {β κ : Type} (env : Env κ) (bot : Bot β κ) (r : Runner β κ)
    (leftover : String) :
    clauseStep env bot r ("R" ++ leftover) = breakWith (caseR env r leftover) := by
  have h : ("R" ++ leftover).data = 'R' :: leftover.data := tagged_data 'R' leftover
  simp [clauseStep, h]

theorem clauseStep_B {β κ : Type} (env : Env κ) (bot : Bot β κ) (r : Runner β κ)
    (leftover : String) :
    clauseStep env bot r ("B" ++ leftover) = breakWith (caseB r leftover) := by
  have h : ("B" ++ leftover).data = 'B' :: leftover.data := tagged_data 'B' leftover
  simp [clauseStep, h]

theorem clauseStep_F {β κ : Type} (env : Env κ) (bot : Bot β κ) (r : Runner β κ)
    (leftover : String) :
    clauseStep env bot r ("F" ++ leftover) = breakWith (caseF env r) := by
  have h : ("F" ++ leftover).data = 'F' :: leftover.data := tagged_data 'F' leftover
  simp [clauseStep, h]

theorem clauseStep_C {β κ : Type} (env : Env κ) (bot : Bot β κ) (r : Runner β κ)
    (leftover : String) :
    clauseStep env bot r ("C" ++ leftover) = breakWith (caseC env r) := by
  have h : ("C" ++ leftover).data = 'C' :: leftover.data := tagged_data 'C' leftover
  simp [clauseStep, h]

theorem clauseStep_K {β κ : Type} (env : Env κ) (bot : Bot β κ) (r : Runner β κ)
    (leftover : String) :
    clauseStep env bot r ("K" ++ leftover) = breakWith (caseK env r) := by
  have h : ("K" ++ leftover).data = 'K' :: leftover.data := tagged_data 'K' leftover
  simp [clauseStep, h]

theorem clauseStep_P {β κ : Type} (env : Env κ) (bot : Bot β κ) (r : Runner β κ)
    (leftover : String) :
    clauseStep env bot r ("P" ++ leftover) = breakWith (caseP r leftover) := by
  have h : ("P" ++ leftover).data = 'P' :: leftover.data := tagged_data 'P' leftover
  simp [clauseStep, h]

theorem clauseStep_T {β κ : Type} (env : Env κ) (bot : Bot β κ) (r : Runner β κ)
    (leftover : String) :
    clauseStep env bot r ("T" ++ leftover) = breakWith (caseT env r leftover) := by
  have h : ("T" ++ leftover).data = 'T' :: leftover.data := tagged_data 'T' leftover
  simp [clauseStep, h]

/-- What `applyProceed` computes on a round state. -/
theorem applyProceed_eq {β κ : Type} (env : Env κ) (r : Runner β κ) (a : Action)
    (button street : Int) (pips stacks_ : Int × Int) (hands : List String × List String)
    (board : List String) (previousState : StatePtr)
    (hstate : r.roundState
      = StatePtr.RoundState button street pips stacks_ hands board previousState) :
    applyProceed env r a = Except.ok { r with roundState := env.proceed r.roundState a } := by
  simp [applyProceed, hstate]

/-- C11. Raise round trip: for every `n` in the range of `int` and every
current round state, folding the clause made of `R` and the decimal form of
`n` replaces the state with `proceed` applied to it and to the action of kind
Raise with amount `n` (and card 0), and nothing else of the runner changes;
encoding that action yields `R` followed by the decimal form of `n`, the
clause itself. -/
theorem raise_round_trip {β κ : Type} (env : Env κ) (bot : Bot β κ) (r : Runner β κ)
    (n : Int)
    (button street : Int) (pips stacks_ : Int × Int) (hands : List String × List String)
    (board : List String) (previousState : StatePtr)
    (hstate : r.roundState
      = StatePtr.RoundState button street pips stacks_ hands board previousState)
    (hn : inIntRange n) :
    clauseStep env bot r ("R" ++ showInt n)
        = Except.ok (Flow.next { r with roundState :=
            (env.proceed r.roundState
              { actionType := ActionType.RAISE, amount := n, card := 0 }) })
    ∧ stoi (showInt n) = Except.ok n
    ∧ encode { actionType := ActionType.RAISE, amount := n, card := 0 } = "R" ++ showInt n := by
  refine ⟨?_, stoi_showInt n hn, rfl⟩
  rw [clauseStep_R, caseR, stoi_showInt n hn]
  simp only []
  rw [applyProceed_eq env r _ button street pips stacks_ hands board previousState hstate]
  rfl

/-- Witness of C11: the clause `R250` inside the sample round. -/
theorem raise_round_trip_witness :
    showInt 250 = "250" ∧
    clauseStep sampleEnv sampleBot sampleActive ("R" ++ showInt 250)
        = Except.ok (Flow.next { sampleActive with roundState :=
            (sampleEnv.proceed sampleActive.roundState
              { actionType := ActionType.RAISE, amount := 250, card := 0 }) })
    ∧ stoi (showInt 250) = Except.ok 250
    ∧ encode { actionType := ActionType.RAISE, amount := 250, card := 0 }
        = "R" ++ showInt 250 :=
  ⟨by decide, raise_round_trip sampleEnv sampleBot sampleActive 250 1 3 (4, 4) (196, 196)
    (["As", "Kd", "2c"], []) ["9h", "Tc", "Jd"] StatePtr.nullptr rfl (by decide)⟩

/-- C17. Board update: for every current round state and every payload of one
or more comma-separated cards `cs`, folding the clause 'B' yields a round
state whose board is exactly `cs`, the old board being dropped, and whose
button, street, pips, stacks, hands and previous state are kept; game info,
active seat, round flag, bot and log are unchanged. -/
theorem board_B_clause {β κ : Type} (env : Env κ) (bot : Bot β κ) (r : Runner β κ)
    (button street : Int) (pips stacks_ : Int × Int) (hands : List String × List String)
    (board : List String) (previousState : StatePtr) (cs : List String)
    (hstate : r.roundState
      = StatePtr.RoundState button street pips stacks_ hands board previousState)
    (hne : cs ≠ []) (hcomma : ∀ c ∈ cs, ',' ∉ c.data) :
    clauseStep env bot r ("B" ++ String.intercalate "," cs)
      = Except.ok (Flow.next { r with roundState :=
          (StatePtr.RoundState button street pips stacks_ hands cs previousState) }) := by
  have hsplit : split ',' (String.intercalate "," cs) = cs := by
    rw [comma_eq_singleton]
    exact split_intercalate ',' cs hne hcomma
  rw [clauseStep_B]
  simp [caseB, hstate, hsplit, breakWith]

/-- Witness of C17: the clause `B9h,Tc,Jd,4s` replaces the flop of the sample
round by four cards. -/
theorem board_B_clause_witness :
    clauseStep sampleEnv sampleBot sampleActive
        ("B" ++ String.intercalate "," ["9h", "Tc", "Jd", "4s"])
      = Except.ok (Flow.next { sampleActive with roundState :=
          (StatePtr.RoundState 1 3 (4, 4) (196, 196) (["As", "Kd", "2c"], [])
            ["9h", "Tc", "Jd", "4s"] StatePtr.nullptr) }) :=
  board_B_clause sampleEnv sampleBot sampleActive 1 3 (4, 4) (196, 196)
    (["As", "Kd", "2c"], []) ["9h", "Tc", "Jd"] StatePtr.nullptr ["9h", "Tc", "Jd", "4s"]
    rfl (by decide) (by decide)

/-- C18. Fold, Call and Check ignore their payload: for every current round
state and every payload `p`, folding `F`, `C` or `K` followed by `p` does not
fail and replaces the state with `proceed` applied to it and to the action
Fold, Call or Check (amount 0, card 0), exactly as the bare tag does; nothing
else of the runner changes. -/
theorem fold_call_check_ignore_payload {β κ : Type} (env : Env κ) (bot : Bot β κ)
    (r : Runner β κ) (p : String)
    (button street : Int) (pips stacks_ : Int × Int) (hands : List String × List String)
    (board : List String) (previousState : StatePtr)
    (hstate : r.roundState
      = StatePtr.RoundState button street pips stacks_ hands board previousState) :
    clauseStep env bot r ("F" ++ p)
        = Except.ok (Flow.next { r with roundState :=
            (env.proceed r.roundState
              { actionType := ActionType.FOLD, amount := 0, card := 0 }) })
    ∧ clauseStep env bot r ("C" ++ p)
        = Except.ok (Flow.next { r with roundState :=
            (env.proceed r.roundState
              { actionType := ActionType.CALL, amount := 0, card := 0 }) })
    ∧ clauseStep env bot r ("K" ++ p)
        = Except.ok (Flow.next { r with roundState :=
            (env.proceed r.roundState
              { actionType := ActionType.CHECK, amount := 0, card := 0 }) })
    ∧ clauseStep env bot r ("F" ++ p) = clauseStep env bot r "F"
    ∧ clauseStep env bot r ("C" ++ p) = clauseStep env bot r "C"
    ∧ clauseStep env bot r ("K" ++ p) = clauseStep env bot r "K" := by
  have hF := applyProceed_eq env r { actionType := ActionType.FOLD, amount := 0, card := 0 }
    button street pips stacks_ hands board previousState hstate
  have hC := applyProceed_eq env r { actionType := ActionType.CALL, amount := 0, card := 0 }
    button street pips stacks_ hands board previousState hstate
  have hK := applyProceed_eq env r { actionType := ActionType.CHECK, amount := 0, card := 0 }
    button street pips stacks_ hands board previousState hstate
  have eF : clauseStep env bot r "F" = breakWith (caseF env r) := clauseStep_F env bot r ""
  have eC : clauseStep env bot r "C" = breakWith (caseC env r) := clauseStep_C env bot r ""
  have eK : clauseStep env bot r "K" = breakWith (caseK env r) := clauseStep_K env bot r ""
  refine ⟨?_, ?_, ?_, ?_, ?_, ?_⟩
  · rw [clauseStep_F, caseF, hF]
    rfl
  · rw [clauseStep_C, caseC, hC]
    rfl
  · rw [clauseStep_K, caseK, hK]
    rfl
  · rw [clauseStep_F, eF]
  · rw [clauseStep_C, eC]
  · rw [clauseStep_K, eK]

/-- Witness of C18: the clauses `Fxyz`, `Cxyz` and `Kxyz` inside the sample round. -/
theorem fold_call_check_ignore_payload_witness :
    clauseStep sampleEnv sampleBot sampleActive ("F" ++ "xyz")
        = Except.ok (Flow.next { sampleActive with roundState :=
            (sampleEnv.proceed sampleActive.roundState
              { actionType := ActionType.FOLD, amount := 0, card := 0 }) })
    ∧ clauseStep sampleEnv sampleBot sampleActive ("C" ++ "xyz")
        = Except.ok (Flow.next { sampleActive with roundState :=
            (sampleEnv.proceed sampleActive.roundState
              { actionType := ActionType.CALL, amount := 0, card := 0 }) })
    ∧ clauseStep sampleEnv sampleBot sampleActive ("K" ++ "xyz")
        = Except.ok (Flow.next { sampleActive with roundState :=
            (sampleEnv.proceed sampleActive.roundState
              { actionType := ActionType.CHECK, amount := 0, card := 0 }) })
    ∧ clauseStep sampleEnv sampleBot sampleActive ("F" ++ "xyz")
        = clauseStep sampleEnv sampleBot sampleActive "F"
    ∧ clauseStep sampleEnv sampleBot sampleActive ("C" ++ "xyz")
        = clauseStep sampleEnv sampleBot sampleActive "C"
    ∧ clauseStep sampleEnv sampleBot sampleActive ("K" ++ "xyz")
        = clauseStep sampleEnv sampleBot sampleActive "K" :=
  fold_call_check_ignore_payload sampleEnv sampleBot sampleActive "xyz" 1 3 (4, 4) (196, 196)
    (["As", "Kd", "2c"], []) ["9h", "Tc", "Jd"] StatePtr.nullptr rfl

/-- C19. Unrecognised tags are ignored: for every runner and every non-empty
clause whose first character is none of T, P, H, G, F, C, K, D, R, B, O, A
and Q, folding the clause does not fail and leaves the whole runner as it is
(game info, state, active seat, round flag, bot and log), whatever follows
the first character. -/
theorem unknown_tag_ignored {β κ : Type} (env : Env κ) (bot : Bot β κ) (r : Runner β κ)
    (clause : String) (tag : Char) (rest : List Char)
    (hdata : clause.data = tag :: rest)
    (htag : tag ∉ ['T', 'P', 'H', 'G', 'F', 'C', 'K', 'D', 'R', 'B', 'O', 'A', 'Q']) :
    clauseStep env bot r clause = Except.ok (Flow.next r) := by
  simp only [List.mem_cons, List.mem_singleton, not_or, List.not_mem_nil, not_false_eq_true,
    and_true] at htag
  obtain ⟨h1, h2, h3, h4, h5, h6, h7, h8, h9, h10, h11, h12, h13⟩ := htag
  unfold clauseStep
  rw [hdata]
  simp only [if_neg h1, if_neg h2, if_neg h3, if_neg h4, if_neg h5, if_neg h6, if_neg h7,
    if_neg h8, if_neg h9, if_neg h10, if_neg h11, if_neg h12, if_neg h13]

/-- Witness of C19: the clause `X12abc` inside the sample round. -/
theorem unknown_tag_ignored_witness :
    clauseStep sampleEnv sampleBot sampleActive "X12abc" = Except.ok (Flow.next sampleActive) :=
  unknown_tag_ignored sampleEnv sampleBot sampleActive "X12abc" 'X' ['1', '2', 'a', 'b', 'c']
    rfl (by decide)

/-! ## The empty line -/

theorem trim_blank (line : String) (hblank : ∀ c ∈ line.data, isSpace c = true) :
    trim line = "" := by
  have h : line.data.dropWhile isSpace = [] := by
    rw [List.dropWhile_eq_nil_iff]
    exact hblank
  unfold trim
  rw [h]
  rfl

/-- C13, the code on an empty line. For every runner, the packet of the empty
line is the one empty clause, on which `clause.substr(1)` throws
`std::out_of_range`: the iteration fails, no successor state is produced and
the send decision is not reached. The same holds for every line made of
white space only, which `trim` empties first. -/
theorem empty_line_throws {β κ : Type} (env : Env κ) (bot : Bot β κ) (r : Runner β κ) :
    receive "" = [""]
    ∧ clauseStep env bot r "" = Except.error Fault.out_of_range
    ∧ lineStep env bot r "" = Except.error Fault.out_of_range
    ∧ lineStep env bot r "  \t " = Except.error Fault.out_of_range
    ∧ (∀ line : String, (∀ c ∈ line.data, isSpace c = true) →
        lineStep env bot r line = Except.error Fault.out_of_range) := by
  have hclause : clauseStep env bot r "" = Except.error Fault.out_of_range := rfl
  have hline : lineStep env bot r "" = Except.error Fault.out_of_range := rfl
  have hall : ∀ line : String, (∀ c ∈ line.data, isSpace c = true) →
      lineStep env bot r line = Except.error Fault.out_of_range := by
    intro line hblank
    unfold lineStep receive
    rw [trim_blank line hblank]
    exact hline
  exact ⟨by decide, hclause, hline, hall _ (by decide), hall⟩

/-! ## Quit -/

/-- A clause that starts with 'Q' executes `return` and leaves the runner as it is. -/
theorem clauseStep_Q {β κ : Type} (env : Env κ) (bot : Bot β κ) (r : Runner β κ)
    (q : String) (hq : q.data.head? = some 'Q') :
    clauseStep env bot r q = Except.ok (Flow.returned r) := by
  unfold clauseStep
  cases hd : q.data with
  | nil => simp [hd] at hq
  | cons tag rest =>
    have ht : tag = 'Q' := by simpa [hd] using hq
    subst ht
    simp

/-- A packet without a clause that starts with 'Q', when its fold does not
fail, is folded to the end. -/
theorem foldClauses_ok_next {β κ : Type} (env : Env κ) (bot : Bot β κ) (packet : List String)
    (hq : ∀ clause ∈ packet, clause.data.head? ≠ some 'Q') (r : Runner β κ)
    (f : Flow (Runner β κ)) (h : foldClauses env bot r packet = Except.ok f) :
    f = Flow.next f.runner := by
  cases f with
  | next r1 => rfl
  | returned r1 => exact absurd h (foldClauses_returned env bot packet hq r r1)

/-- C12. Quit: for every runner and every line whose packet holds a clause
that starts with 'Q', with `pre` the clauses before the first such clause and
`post` those after it: the clauses of `pre` are folded in order, and if that
fold fails the iteration fails the same way; otherwise `return` is executed
in the state that `pre` leaves, the clauses of `post` and the lines that
follow have no effect, and nothing is sent and `getAction` is not invoked for
this line or a later one. -/
theorem quit_halts {β κ : Type} (env : Env κ) (bot : Bot β κ) (r : Runner β κ)
    (line : String) (pre : List String) (q : String) (post later : List String)
    (hrecv : receive line = pre ++ q :: post)
    (hq : q.data.head? = some 'Q')
    (hpre : ∀ clause ∈ pre, clause.data.head? ≠ some 'Q') :
    runLines env bot r (line :: later)
        = (match foldClauses env bot r pre with
           | Except.error e => Except.error e
           | Except.ok f => Except.ok (Flow.returned f.runner))
    ∧ (∀ r1 : Runner β κ, foldClauses env bot r pre = Except.ok (Flow.next r1) →
        runLines env bot r (line :: later) = Except.ok (Flow.returned r1)
        ∧ sentTexts r1.log = sentTexts r.log
        ∧ getActionCalls r1.log = getActionCalls r.log)
    ∧ (∀ f : Flow (Runner β κ), foldClauses env bot r pre = Except.ok f →
        f = Flow.next f.runner) := by
  have hfold : foldClauses env bot r (receive line)
      = (match foldClauses env bot r pre with
         | Except.error e => Except.error e
         | Except.ok f => Except.ok (Flow.returned f.runner)) := by
    rw [hrecv, foldClauses_append]
    cases hp : foldClauses env bot r pre with
    | error e => rfl
    | ok f =>
      cases f with
      | returned r1 => rfl
      | next r1 =>
        simp only [foldClauses, clauseStep_Q env bot r1 q hq]
        rfl
  have hrun : runLines env bot r (line :: later)
      = (match foldClauses env bot r pre with
         | Except.error e => Except.error e
         | Except.ok f => Except.ok (Flow.returned f.runner)) := by
    simp only [runLines, List.map_cons, runPackets, packetStep, hfold]
    cases hp : foldClauses env bot r pre with
    | error e => rfl
    | ok f => rfl
  refine ⟨hrun, ?_, fun f hf => foldClauses_ok_next env bot pre hpre r f hf⟩
  intro r1 h1
  have hquiet := foldClauses_quiet env bot pre r _ h1
  refine ⟨?_, hquiet.1, hquiet.2⟩
  rw [hrun, h1]
  rfl

/-- Witness of C12: the line `T5 Q K` followed by the line `K`, inside the
sample round. -/
theorem quit_halts_witness :
    runLines sampleEnv sampleBot sampleActive ("T5 Q K" :: ["K"])
        = (match foldClauses sampleEnv sampleBot sampleActive ["T5"] with
           | Except.error e => Except.error e
           | Except.ok f => Except.ok (Flow.returned f.runner))
    ∧ (∀ r1 : Runner Nat Int,
        foldClauses sampleEnv sampleBot sampleActive ["T5"] = Except.ok (Flow.next r1) →
        runLines sampleEnv sampleBot sampleActive ("T5 Q K" :: ["K"])
          = Except.ok (Flow.returned r1)
        ∧ sentTexts r1.log = sentTexts sampleActive.log
        ∧ getActionCalls r1.log = getActionCalls sampleActive.log)
    ∧ (∀ f : Flow (Runner Nat Int),
        foldClauses sampleEnv sampleBot sampleActive ["T5"] = Except.ok f →
        f = Flow.next f.runner) :=
  quit_halts sampleEnv sampleBot sampleActive "T5 Q K" ["T5"] "Q" ["K"] ["K"]
    (by decide) (by decide) (by decide)

/-! ## Numeric payloads -/

theorem stoi_empty : stoi "" = Except.error Fault.invalid_argument := rfl

/-- A payload whose first character is neither white space, a sign nor a
digit is rejected by `std::stoi`. -/
theorem stoi_nonnumeric (c : Char) (rest : List Char) (hspace : isSpace c = false)
    (hminus : c ≠ '-') (hplus : c ≠ '+') (hdigit : isDigit c = false) :
    stoi (String.mk (c :: rest)) = Except.error Fault.invalid_argument := by
  unfold stoi
  simp [List.dropWhile, hspace, hminus, hplus, List.takeWhile, hdigit, stoiValue]

/-- C14, as amended. Fatal numeric decode errors: for each of the tags P, R,
D and A and every payload that `std::stoi` rejects with the exception `e`,
folding the clause fails with `e`, whatever the state, and produces no
successor state; no default is substituted. The empty payload is rejected,
and so is every payload whose first character is neither white space, a
sign nor a digit, and so is a number outside the range of `int`. -/
theorem numeric_decode_errors {β κ : Type} (env : Env κ) (bot : Bot β κ) (r : Runner β κ)
    (leftover : String) (e : Fault)
    (hstoi : stoi leftover = Except.error e) :
    clauseStep env bot r ("P" ++ leftover) = Except.error e
    ∧ clauseStep env bot r ("R" ++ leftover) = Except.error e
    ∧ clauseStep env bot r ("D" ++ leftover) = Except.error e
    ∧ clauseStep env bot r ("A" ++ leftover) = Except.error e
    ∧ stoi "" = Except.error Fault.invalid_argument
    ∧ (∀ (c : Char) (rest : List Char), isSpace c = false → c ≠ '-' → c ≠ '+' →
        isDigit c = false →
        stoi (String.mk (c :: rest)) = Except.error Fault.invalid_argument)
    ∧ stoi "2147483648" = Except.error Fault.out_of_range := by
  refine ⟨?_, ?_, ?_, ?_, stoi_empty, stoi_nonnumeric, rfl⟩
  · rw [clauseStep_P, caseP, hstoi]
    rfl
  · rw [clauseStep_R, caseR, hstoi]
    rfl
  · rw [clauseStep_D, caseD, hstoi]
    rfl
  · rw [clauseStep_A, caseA, hstoi]
    rfl

/-- Witness of C14 as amended: the payload `abc`. -/
theorem numeric_decode_errors_witness :
    clauseStep sampleEnv sampleBot sampleActive ("P" ++ "abc")
        = Except.error Fault.invalid_argument
    ∧ clauseStep sampleEnv sampleBot sampleActive ("R" ++ "abc")
        = Except.error Fault.invalid_argument
    ∧ clauseStep sampleEnv sampleBot sampleActive ("D" ++ "abc")
        = Except.error Fault.invalid_argument
    ∧ clauseStep sampleEnv sampleBot sampleActive ("A" ++ "abc")
        = Except.error Fault.invalid_argument
    ∧ stoi "" = Except.error Fault.invalid_argument
    ∧ (∀ (c : Char) (rest : List Char), isSpace c = false → c ≠ '-' → c ≠ '+' →
        isDigit c = false →
        stoi (String.mk (c :: rest)) = Except.error Fault.invalid_argument)
    ∧ stoi "2147483648" = Except.error Fault.out_of_range :=
  numeric_decode_errors sampleEnv sampleBot sampleActive "abc" Fault.invalid_argument rfl

/-- Counterexample to C14 as stated: the payload `12abc`, digits followed by
trailing characters, is read by `std::stoi` as 12; the clause `P12abc` sets
the active seat to 12 and the clause `A12abc` pays 12, neither fails. -/
theorem numeric_prefix_counterexample :
    stoi "12abc" = Except.ok 12
    ∧ clauseStep sampleEnv sampleBot sampleActive "P12abc"
        = Except.ok (Flow.next { sampleActive with active := 12 })
    ∧ clauseStep sampleEnv sampleBot sampleEnded "A12abc"
        = Except.ok (Flow.next { sampleEnded with
            roundState := StatePtr.TerminalState (12, -12) sampleRound
            gameInfo := { bankroll := 24, gameClock := 90, roundNum := 1 } })
    ∧ ¬ ∃ e : Fault,
        clauseStep sampleEnv sampleBot sampleActive "P12abc" = Except.error e := by
  have hP : clauseStep sampleEnv sampleBot sampleActive "P12abc"
      = Except.ok (Flow.next { sampleActive with active := 12 }) := rfl
  refine ⟨rfl, hP, rfl, ?_⟩
  rintro ⟨e, he⟩
  rw [hP] at he
  exact absurd he (by simp)

/-! ## Clock updates -/

/-- C16. Clock updates: for every runner and every non-empty sequence of 'T'
clauses whose payloads are all read by `std::stof` (the pairs of `init` and
then the payload `p`, read as `v`), folding them keeps the bankroll and the
round number and sets the game clock to the value read from the last
payload; state, active seat, round flag, bot and log are unchanged. -/
theorem clock_T_clauses {β κ : Type} (env : Env κ) (bot : Bot β κ) (r : Runner β κ)
    (init : List (String × κ)) (p : String) (v : κ)
    (hinit : ∀ x ∈ init, env.stof x.1 = Except.ok x.2)
    (hlast : env.stof p = Except.ok v) :
    foldClauses env bot r (init.map (fun x => "T" ++ x.1) ++ ["T" ++ p])
      = Except.ok (Flow.next { r with gameInfo :=
          { bankroll := r.gameInfo.bankroll
            gameClock := v
            roundNum := r.gameInfo.roundNum } }) := by
  induction init generalizing r with
  | nil =>
    simp only [List.map_nil, List.nil_append, foldClauses, clauseStep_T, caseT, hlast,
      breakWith]
  | cons x xs ih =>
    have hx := hinit x (by simp)
    have hxs : ∀ y ∈ xs, env.stof y.1 = Except.ok y.2 :=
      fun y hy => hinit y (List.mem_cons_of_mem _ hy)
    simp only [List.map_cons, List.cons_append, foldClauses, clauseStep_T, caseT, hx,
      breakWith]
    exact ih _ hxs

/-- Witness of C16: the clauses `T90`, `T85`, `T80` inside the sample round,
for a clock read as an integer. -/
theorem clock_T_clauses_witness :
    foldClauses sampleEnv sampleBot sampleActive
        ([("90", (90 : Int)), ("85", 85)].map (fun x => "T" ++ x.1) ++ ["T" ++ "80"])
      = Except.ok (Flow.next { sampleActive with gameInfo :=
          { bankroll := sampleActive.gameInfo.bankroll
            gameClock := 80
            roundNum := sampleActive.gameInfo.roundNum } }) :=
  clock_T_clauses sampleEnv sampleBot sampleActive [("90", 90), ("85", 85)] "80" 80
    (by
      intro x hx
      simp only [List.mem_cons, List.mem_singleton, List.not_mem_nil, or_false] at hx
      rcases hx with rfl | rfl <;> rfl)
    rfl

/-! ## The bankroll -/

theorem caseT_bankroll {β κ : Type} (env : Env κ) (r r1 : Runner β κ) (leftover : String)
    (h : caseT env r leftover = Except.ok r1) :
    r1.gameInfo.bankroll = r.gameInfo.bankroll := by
  unfold caseT at h
  cases hx : env.stof leftover with
  | error e => simp [hx] at h
  | ok v =>
    simp only [hx] at h
    rw [← Except.ok.inj h]

theorem caseP_bankroll {β κ : Type} (r r1 : Runner β κ) (leftover : String)
    (h : caseP r leftover = Except.ok r1) :
    r1.gameInfo.bankroll = r.gameInfo.bankroll := by
  unfold caseP at h
  cases hx : stoi leftover with
  | error e => simp [hx] at h
  | ok v =>
    simp only [hx] at h
    rw [← Except.ok.inj h]

theorem caseH_bankroll {β κ : Type} (env : Env κ) (r r1 : Runner β κ) (leftover : String)
    (h : caseH env r leftover = Except.ok r1) :
    r1.gameInfo.bankroll = r.gameInfo.bankroll := by
  unfold caseH at h
  split at h
  · rename_i c0 c1 c2 _ _
    cases hx : arraySet (([], []) : List String × List String) r.active [c0, c1, c2] with
    | error e => simp [hx] at h
    | ok v =>
      simp only [hx] at h
      rw [← Except.ok.inj h]
  · simp at h

theorem caseG_bankroll {β κ : Type} (bot : Bot β κ) (r r1 : Runner β κ)
    (h : caseG bot r = Except.ok r1) :
    r1.gameInfo.bankroll = r.gameInfo.bankroll := by
  unfold caseG at h
  split at h
  · cases hf : r.roundFlag with
    | false =>
      simp only [hf] at h
      rw [← Except.ok.inj h]
    | true =>
      simp only [hf, if_true] at h
      rw [← Except.ok.inj h]
  · simp at h

theorem applyProceed_bankroll {β κ : Type} (env : Env κ) (r r1 : Runner β κ) (a : Action)
    (h : applyProceed env r a = Except.ok r1) :
    r1.gameInfo.bankroll = r.gameInfo.bankroll := by
  unfold applyProceed at h
  split at h
  · rw [← Except.ok.inj h]
  · simp at h

theorem caseD_bankroll {β κ : Type} (env : Env κ) (r r1 : Runner β κ) (leftover : String)
    (h : caseD env r leftover = Except.ok r1) :
    r1.gameInfo.bankroll = r.gameInfo.bankroll := by
  unfold caseD at h
  cases hx : stoi leftover with
  | error e => simp [hx] at h
  | ok v =>
    simp only [hx] at h
    exact applyProceed_bankroll env r r1 _ h

theorem caseR_bankroll {β κ : Type} (env : Env κ) (r r1 : Runner β κ) (leftover : String)
    (h : caseR env r leftover = Except.ok r1) :
    r1.gameInfo.bankroll = r.gameInfo.bankroll := by
  unfold caseR at h
  cases hx : stoi leftover with
  | error e => simp [hx] at h
  | ok v =>
    simp only [hx] at h
    exact applyProceed_bankroll env r r1 _ h

theorem caseB_bankroll {β κ : Type} (r r1 : Runner β κ) (leftover : String)
    (h : caseB r leftover = Except.ok r1) :
    r1.gameInfo.bankroll = r.gameInfo.bankroll := by
  unfold caseB at h
  split at h
  · rw [← Except.ok.inj h]
  · simp at h

theorem caseO_bankroll {β κ : Type} (r r1 : Runner β κ) (leftover : String)
    (h : caseO r leftover = Except.ok r1) :
    r1.gameInfo.bankroll = r.gameInfo.bankroll := by
  unfold caseO at h
  split at h
  · split at h
    · simp at h
    · split at h
      · simp at h
      · rw [← Except.ok.inj h]
  · simp at h

/-- A payout clause that is folded adds the integer that `std::stoi` reads
from its payload to the bankroll, in `int` arithmetic. -/
theorem caseA_bankroll {β κ : Type} (r r1 : Runner β κ) (leftover : String)
    (h : caseA r leftover = Except.ok r1) :
    ∃ d : Int, stoi leftover = Except.ok d
      ∧ r1.gameInfo.bankroll = wrapInt (r.gameInfo.bankroll + d) := by
  unfold caseA at h
  cases hx : stoi leftover with
  | error e => simp [hx] at h
  | ok d =>
    refine ⟨d, rfl, ?_⟩
    simp only [hx] at h
    split at h
    · simp at h
    · split at h
      · simp at h
      · split at h
        · rw [← Except.ok.inj h]
        · simp at h

/-- No clause other than a payout clause changes the bankroll. -/
theorem clauseStep_bankroll_other {β κ : Type} (env : Env κ) (bot : Bot β κ)
    (r : Runner β κ) (clause : String) (f : Flow (Runner β κ))
    (h : clauseStep env bot r clause = Except.ok f)
    (hA : clause.data.head? ≠ some 'A') :
    f.runner.gameInfo.bankroll = r.gameInfo.bankroll := by
  revert h
  unfold clauseStep
  cases hd : clause.data with
  | nil => simp
  | cons tag rest =>
    have hne : ¬ tag = 'A' := by
      intro e
      exact hA (by rw [hd, e]; rfl)
    simp only [hne, if_false]
    repeat' first
      | exact fun h => caseT_bankroll env r _ _ (breakWith_ok _ _ h)
      | exact fun h => caseP_bankroll r _ _ (breakWith_ok _ _ h)
      | exact fun h => caseH_bankroll env r _ _ (breakWith_ok _ _ h)
      | exact fun h => caseG_bankroll bot r _ (breakWith_ok _ _ h)
      | exact fun h => applyProceed_bankroll env r _ _ (breakWith_ok _ _ h)
      | exact fun h => caseD_bankroll env r _ _ (breakWith_ok _ _ h)
      | exact fun h => caseR_bankroll env r _ _ (breakWith_ok _ _ h)
      | exact fun h => caseB_bankroll r _ _ (breakWith_ok _ _ h)
      | exact fun h => caseO_bankroll r _ _ (breakWith_ok _ _ h)
      | exact fun h => (Except.ok.inj h) ▸ rfl
      | apply ite_flagStep (P := fun x => x = Except.ok f →
          f.runner.gameInfo.bankroll = r.gameInfo.bankroll)

theorem awardOf_other (clause : String) (hA : clause.data.head? ≠ some 'A') :
    awardOf clause = 0 := by
  unfold awardOf
  cases hd : clause.data with
  | nil => rfl
  | cons tag rest =>
    have hne : ¬ tag = 'A' := by
      intro e
      exact hA (by rw [hd, e]; rfl)
    simp [hne]

/-- A clause that is folded adds its award to the bankroll, when the sum is
an `int`. -/
theorem clauseStep_bankroll {β κ : Type} (env : Env κ) (bot : Bot β κ)
    (r : Runner β κ) (clause : String) (f : Flow (Runner β κ))
    (h : clauseStep env bot r clause = Except.ok f)
    (hrange : inIntRange (r.gameInfo.bankroll + awardOf clause)) :
    f.runner.gameInfo.bankroll = r.gameInfo.bankroll + awardOf clause := by
  by_cases hA : clause.data.head? = some 'A'
  · cases hd : clause.data with
    | nil => simp [hd] at hA
    | cons tag rest =>
      have ht : tag = 'A' := by simpa [hd] using hA
      subst ht
      have hstep : clauseStep env bot r clause = breakWith (caseA r (String.mk rest)) := by
        simp [clauseStep, hd]
      rw [hstep] at h
      obtain ⟨d, hd1, hd2⟩ := caseA_bankroll r _ _ (breakWith_ok _ _ h)
      have haward : awardOf clause = d := by
        simp [awardOf, hd, hd1]
      rw [haward] at hrange ⊢
      rw [hd2, wrapInt_of_inIntRange _ hrange]
  · rw [awardOf_other clause hA, add_zero]
    exact clauseStep_bankroll_other env bot r clause f h hA

theorem awardSum_cons (c : String) (cs : List String) :
    awardSum (c :: cs) = awardOf c + awardSum cs := by
  simp [awardSum]

/-- Folding a sequence of clauses to its end adds the sum of its awards to the
bankroll, when no partial sum leaves the range of `int`. -/
theorem foldClauses_bankroll {β κ : Type} (env : Env κ) (bot : Bot β κ)
    (clauses : List String) (r rf : Runner β κ)
    (h : foldClauses env bot r clauses = Except.ok (Flow.next rf))
    (hrange : ∀ pre ∈ clauses.inits, inIntRange (r.gameInfo.bankroll + awardSum pre)) :
    rf.gameInfo.bankroll = r.gameInfo.bankroll + awardSum clauses := by
  induction clauses generalizing r with
  | nil =>
    simp only [foldClauses] at h
    have e : r = rf := Flow.next.inj (Except.ok.inj h)
    rw [← e]
    simp [awardSum]
  | cons c cs ih =>
    unfold foldClauses at h
    cases hc : clauseStep env bot r c with
    | error e => simp [hc] at h
    | ok f =>
      cases f with
      | returned r1 => simp [hc] at h
      | next r1 =>
        simp only [hc] at h
        have h1 : inIntRange (r.gameInfo.bankroll + awardOf c) := by
          have := hrange [c] ((List.mem_inits _ _).2 ⟨cs, rfl⟩)
          simpa [awardSum] using this
        have hb : r1.gameInfo.bankroll = r.gameInfo.bankroll + awardOf c :=
          clauseStep_bankroll env bot r c (Flow.next r1) hc h1
        have h2 : ∀ pre ∈ cs.inits, inIntRange (r1.gameInfo.bankroll + awardSum pre) := by
          intro pre hpre
          have hp : c :: pre ∈ (c :: cs).inits :=
            (List.mem_inits _ _).2 ((List.prefix_cons_inj c).2 ((List.mem_inits _ _).1 hpre))
          have := hrange (c :: pre) hp
          rw [awardSum_cons, ← add_assoc] at this
          rw [hb]
          exact this
        rw [ih r1 h h2, hb, awardSum_cons, add_assoc]

theorem flowAgree_next_left {β β' κ : Type} (r : Runner β κ)
    (y : Except Fault (Flow (Runner β' κ))) (h : FlowAgree (Except.ok (Flow.next r)) y) :
    ∃ r' : Runner β' κ, y = Except.ok (Flow.next r') ∧ Agree r r' := by
  cases y with
  | error e => simp [FlowAgree] at h
  | ok f =>
    cases f with
    | returned r' => simp [FlowAgree] at h
    | next r' => exact ⟨r', rfl, h⟩

/-- The answer sent after a packet leaves the game info as it is. -/
theorem respond_gameInfo {β κ : Type} (bot : Bot β κ) (r : Runner β κ) :
    (respond bot r).gameInfo = r.gameInfo :=
  (respond_agree bot r).1

/-- C15. Bankroll is cumulative: from the initial runner, whose bankroll is
0, after packets whose clauses have all been folded without failure, answers
included, the bankroll is the sum of the integers that `std::stoi` reads from
the payloads of the 'A' clauses folded, provided no partial sum leaves the
range of `int`. No clause with another tag changes the bankroll, and neither
does the answer sent after a packet. -/
theorem bankroll_is_cumulative {β κ : Type} (env : Env κ) (bot : Bot β κ) (pokerbot : β)
    (packets : List (List String)) (rf : Runner β κ)
    (hrun : runPackets env bot (Runner.initial env pokerbot) packets
      = Except.ok (Flow.next rf))
    (hrange : ∀ pre ∈ packets.flatten.inits, inIntRange (awardSum pre)) :
    (Runner.initial env pokerbot).gameInfo.bankroll = 0
    ∧ rf.gameInfo.bankroll = awardSum packets.flatten
    ∧ (∀ (r : Runner β κ) (clause : String) (f : Flow (Runner β κ)),
        clauseStep env bot r clause = Except.ok f → clause.data.head? ≠ some 'A' →
        f.runner.gameInfo.bankroll = r.gameInfo.bankroll)
    ∧ (∀ r : Runner β κ, (respond bot r).gameInfo.bankroll = r.gameInfo.bankroll) := by
  refine ⟨rfl, ?_, clauseStep_bankroll_other env bot, fun r => by rw [respond_gameInfo]⟩
  have hag := runPackets_agree env bot bot packets _ _
    (agree_refl (Runner.initial env pokerbot))
  rw [hrun] at hag
  obtain ⟨rf', hfold, hagree⟩ := flowAgree_next_left _ _ hag
  have hzero : (Runner.initial env pokerbot).gameInfo.bankroll = 0 := rfl
  have hb := foldClauses_bankroll env bot packets.flatten _ rf' hfold (by
    intro pre hpre
    rw [hzero, zero_add]
    exact hrange pre hpre)
  rw [hagree.1, hb, hzero, zero_add]

/-- Witness of C15: two rounds that end on a fold, paid -5 and 7. -/
theorem bankroll_is_cumulative_witness :
    ∃ rf : Runner Nat Int,
      runPackets sampleEnv sampleBot (Runner.initial sampleEnv 0)
          [["HAs,Kd,2c", "G"], ["F"], ["A-5"], ["HQs,Qd,2h", "G"], ["F"], ["A7"]]
        = Except.ok (Flow.next rf)
      ∧ awardSum ["HAs,Kd,2c", "G", "F", "A-5", "HQs,Qd,2h", "G", "F", "A7"] = 2
      ∧ (Runner.initial sampleEnv 0).gameInfo.bankroll = 0
      ∧ rf.gameInfo.bankroll
          = awardSum
              [["HAs,Kd,2c", "G"], ["F"], ["A-5"], ["HQs,Qd,2h", "G"], ["F"], ["A7"]].flatten
      ∧ (∀ (r : Runner Nat Int) (clause : String) (f : Flow (Runner Nat Int)),
          clauseStep sampleEnv sampleBot r clause = Except.ok f →
          clause.data.head? ≠ some 'A' →
          f.runner.gameInfo.bankroll = r.gameInfo.bankroll)
      ∧ (∀ r : Runner Nat Int,
          (respond sampleBot r).gameInfo.bankroll = r.gameInfo.bankroll) :=
  ⟨_, rfl, by decide,
    bankroll_is_cumulative sampleEnv sampleBot 0
      [["HAs,Kd,2c", "G"], ["F"], ["A-5"], ["HQs,Qd,2h", "G"], ["F"], ["A7"]] _ rfl
      (by decide)⟩

/-! ## Two bots, one rebuilt state -/

theorem agree_symm {β β' κ : Type} {r : Runner β κ} {r' : Runner β' κ} (h : Agree r r') :
    Agree r' r :=
  ⟨h.1.symm, h.2.1.symm, h.2.2.1.symm, h.2.2.2.1.symm, h.2.2.2.2.symm⟩

/-- Two results that agree with a third one agree with each other. -/
theorem flowAgree_of_common {β β' β'' κ : Type} (x : Except Fault (Flow (Runner β κ)))
    (y : Except Fault (Flow (Runner β' κ))) (z : Except Fault (Flow (Runner β'' κ)))
    (hx : FlowAgree x z) (hy : FlowAgree y z) : FlowAgree x y := by
  cases x with
  | error e =>
    cases z with
    | error e2 =>
      cases y with
      | error e1 =>
        simp only [FlowAgree] at hx hy ⊢
        rw [hx, hy]
      | ok fy => cases fy <;> simp [FlowAgree] at hy
    | ok fz => cases fz <;> simp [FlowAgree] at hx
  | ok fx =>
    cases z with
    | error e2 => cases fx <;> simp [FlowAgree] at hx
    | ok fz =>
      cases y with
      | error e1 => cases fz <;> simp [FlowAgree] at hy
      | ok fy =>
        cases fx <;> cases fz <;> cases fy <;>
          first
            | exact agree_trans hx (agree_symm hy)
            | (simp [FlowAgree] at hy; done)
            | simp [FlowAgree] at hx

/-- Two runs over the same packets, from runners that agree and with any two
bots, agree. -/
theorem runPackets_two_bots {β β' κ : Type} (env : Env κ) (bot : Bot β κ) (bot' : Bot β' κ)
    (packets : List (List String)) (r : Runner β κ) (r' : Runner β' κ) (h : Agree r r') :
    FlowAgree (runPackets env bot r packets) (runPackets env bot' r' packets) :=
  flowAgree_of_common _ _ _ (runPackets_agree env bot bot' packets r r' h)
    (runPackets_agree env bot' bot' packets r' r' (agree_refl r'))

/-- C20. The rebuilt state does not depend on the bot: for every sequence of
lines and any two bots, whatever their callbacks return and whatever state
they keep, the two runs from the initial runner end the same way (the same
failure, or both go on, or both return at a 'Q'), with the same game info,
state, active seat and round flag; as this holds for every sequence, it holds
after each line. The answer step changes none of these: the action that
`getAction` returns is only encoded and sent. -/
theorem state_independent_of_bot {β β' κ : Type} (env : Env κ) (bot : Bot β κ)
    (bot' : Bot β' κ) (pokerbot : β) (pokerbot' : β') (lines : List String) :
    FlowAgree (runLines env bot (Runner.initial env pokerbot) lines)
      (runLines env bot' (Runner.initial env pokerbot') lines)
    ∧ (∀ r1 : Runner β κ,
        runLines env bot (Runner.initial env pokerbot) lines = Except.ok (Flow.next r1) →
        ∃ r1' : Runner β' κ,
          runLines env bot' (Runner.initial env pokerbot') lines = Except.ok (Flow.next r1')
          ∧ r1.gameInfo = r1'.gameInfo ∧ r1.roundState = r1'.roundState
          ∧ r1.active = r1'.active ∧ r1.roundFlag = r1'.roundFlag)
    ∧ (∀ (e : Fault),
        runLines env bot (Runner.initial env pokerbot) lines = Except.error e →
        runLines env bot' (Runner.initial env pokerbot') lines = Except.error e)
    ∧ (∀ r : Runner β κ,
        (respond bot r).gameInfo = r.gameInfo ∧ (respond bot r).roundState = r.roundState
        ∧ (respond bot r).active = r.active ∧ (respond bot r).roundFlag = r.roundFlag) := by
  have hinit : Agree (Runner.initial env pokerbot) (Runner.initial env pokerbot') :=
    ⟨rfl, rfl, rfl, rfl, rfl⟩
  have hag : FlowAgree (runLines env bot (Runner.initial env pokerbot) lines)
      (runLines env bot' (Runner.initial env pokerbot') lines) :=
    runPackets_two_bots env bot bot' (lines.map receive) _ _ hinit
  refine ⟨hag, ?_, ?_, ?_⟩
  · intro r1 h1
    rw [h1] at hag
    obtain ⟨r1', h2, h3⟩ := flowAgree_next_left _ _ hag
    exact ⟨r1', h2, h3.1, h3.2.1, h3.2.2.1, h3.2.2.2.1⟩
  · intro e h1
    rw [h1] at hag
    cases h2 : runLines env bot' (Runner.initial env pokerbot') lines with
    | error e' =>
      rw [h2] at hag
      simp only [FlowAgree] at hag
      rw [hag]
    | ok f =>
      rw [h2] at hag
      cases f <;> simp [FlowAgree] at hag
  · intro r
    have h := respond_agree bot r
    exact ⟨h.1, h.2.1, h.2.2.1, h.2.2.2.1⟩

/-! ## The log records what was done to the bot -/

theorem replay_append {β κ : Type} (bot : Bot β κ) (l1 l2 : List (Event κ)) (b : β) :
    replay bot (l1 ++ l2) b = replay bot l2 (replay bot l1 b) := by
  simp [replay, List.foldl_append]

theorem caseT_pokerbot {β κ : Type} (env : Env κ) (r r1 : Runner β κ) (leftover : String)
    (h : caseT env r leftover = Except.ok r1) : r1.pokerbot = r.pokerbot := by
  unfold caseT at h
  cases hx : env.stof leftover with
  | error e => simp [hx] at h
  | ok v =>
    simp only [hx] at h
    rw [← Except.ok.inj h]

theorem caseP_pokerbot {β κ : Type} (r r1 : Runner β κ) (leftover : String)
    (h : caseP r leftover = Except.ok r1) : r1.pokerbot = r.pokerbot := by
  unfold caseP at h
  cases hx : stoi leftover with
  | error e => simp [hx] at h
  | ok v =>
    simp only [hx] at h
    rw [← Except.ok.inj h]

theorem caseH_pokerbot {β κ : Type} (env : Env κ) (r r1 : Runner β κ) (leftover : String)
    (h : caseH env r leftover = Except.ok r1) : r1.pokerbot = r.pokerbot := by
  unfold caseH at h
  split at h
  · rename_i c0 c1 c2 _ _
    cases hx : arraySet (([], []) : List String × List String) r.active [c0, c1, c2] with
    | error e => simp [hx] at h
    | ok v =>
      simp only [hx] at h
      rw [← Except.ok.inj h]
  · simp at h

theorem applyProceed_pokerbot {β κ : Type} (env : Env κ) (r r1 : Runner β κ) (a : Action)
    (h : applyProceed env r a = Except.ok r1) : r1.pokerbot = r.pokerbot := by
  unfold applyProceed at h
  split at h
  · rw [← Except.ok.inj h]
  · simp at h

theorem caseD_pokerbot {β κ : Type} (env : Env κ) (r r1 : Runner β κ) (leftover : String)
    (h : caseD env r leftover = Except.ok r1) : r1.pokerbot = r.pokerbot := by
  unfold caseD at h
  cases hx : stoi leftover with
  | error e => simp [hx] at h
  | ok v =>
    simp only [hx] at h
    exact applyProceed_pokerbot env r r1 _ h

theorem caseR_pokerbot {β κ : Type} (env : Env κ) (r r1 : Runner β κ) (leftover : String)
    (h : caseR env r leftover = Except.ok r1) : r1.pokerbot = r.pokerbot := by
  unfold caseR at h
  cases hx : stoi leftover with
  | error e => simp [hx] at h
  | ok v =>
    simp only [hx] at h
    exact applyProceed_pokerbot env r r1 _ h

theorem caseB_pokerbot {β κ : Type} (r r1 : Runner β κ) (leftover : String)
    (h : caseB r leftover = Except.ok r1) : r1.pokerbot = r.pokerbot := by
  unfold caseB at h
  split at h
  · rw [← Except.ok.inj h]
  · simp at h

theorem caseO_pokerbot {β κ : Type} (r r1 : Runner β κ) (leftover : String)
    (h : caseO r leftover = Except.ok r1) : r1.pokerbot = r.pokerbot := by
  unfold caseO at h
  split at h
  · split at h
    · simp at h
    · split at h
      · simp at h
      · rw [← Except.ok.inj h]
  · simp at h

theorem caseA_pokerbot {β κ : Type} (r r1 : Runner β κ) (leftover : String)
    (h : caseA r leftover = Except.ok r1) : r1.pokerbot = r.pokerbot := by
  unfold caseA at h
  split at h
  · simp at h
  · split at h
    · simp at h
    · split at h
      · simp at h
      · split at h
        · rw [← Except.ok.inj h]
        · simp at h

theorem caseG_replayed {β κ : Type} (bot : Bot β κ) (r r1 : Runner β κ)
    (h : caseG bot r = Except.ok r1) :
    ∃ added : List (Event κ),
      r1.log = r.log ++ added ∧ r1.pokerbot = replay bot added r.pokerbot := by
  unfold caseG at h
  split at h
  · cases hf : r.roundFlag with
    | false =>
      simp only [hf] at h
      rw [← Except.ok.inj h]
      exact ⟨[], by simp, rfl⟩
    | true =>
      simp only [hf, if_true] at h
      rw [← Except.ok.inj h]
      exact ⟨_, rfl, rfl⟩
  · simp at h

/-- Folding a clause changes the bot state only by the callbacks it logs. -/
theorem clauseStep_replayed {β κ : Type} (env : Env κ) (bot : Bot β κ) (r : Runner β κ)
    (clause : String) (f : Flow (Runner β κ))
    (h : clauseStep env bot r clause = Except.ok f) :
    ∃ added : List (Event κ),
      f.runner.log = r.log ++ added ∧ f.runner.pokerbot = replay bot added r.pokerbot := by
  have hkeep : ∀ r1 : Runner β κ, r1.log = r.log → r1.pokerbot = r.pokerbot →
      ∃ added : List (Event κ),
        r1.log = r.log ++ added ∧ r1.pokerbot = replay bot added r.pokerbot :=
    fun r1 h1 h2 => ⟨[], by simp [h1], by simp [h2, replay]⟩
  revert h
  unfold clauseStep
  cases clause.data with
  | nil => simp
  | cons tag rest =>
    dsimp only
    repeat' first
      | exact fun h => hkeep _ (caseT_frame env r _ _ (breakWith_ok _ _ h)).2
          (caseT_pokerbot env r _ _ (breakWith_ok _ _ h))
      | exact fun h => hkeep _ (caseP_frame r _ _ (breakWith_ok _ _ h)).2
          (caseP_pokerbot r _ _ (breakWith_ok _ _ h))
      | exact fun h => hkeep _ (caseH_frame env r _ _ (breakWith_ok _ _ h)).2
          (caseH_pokerbot env r _ _ (breakWith_ok _ _ h))
      | exact fun h => caseG_replayed bot r _ (breakWith_ok _ _ h)
      | exact fun h => hkeep _ (applyProceed_frame env r _ _ (breakWith_ok _ _ h)).2
          (applyProceed_pokerbot env r _ _ (breakWith_ok _ _ h))
      | exact fun h => hkeep _ (caseD_frame env r _ _ (breakWith_ok _ _ h)).2
          (caseD_pokerbot env r _ _ (breakWith_ok _ _ h))
      | exact fun h => hkeep _ (caseR_frame env r _ _ (breakWith_ok _ _ h)).2
          (caseR_pokerbot env r _ _ (breakWith_ok _ _ h))
      | exact fun h => hkeep _ (caseB_frame r _ _ (breakWith_ok _ _ h)).2
          (caseB_pokerbot r _ _ (breakWith_ok _ _ h))
      | exact fun h => hkeep _ (caseO_frame r _ _ (breakWith_ok _ _ h)).2
          (caseO_pokerbot r _ _ (breakWith_ok _ _ h))
      | exact fun h => hkeep _ (caseA_frame r _ _ (breakWith_ok _ _ h)).2
          (caseA_pokerbot r _ _ (breakWith_ok _ _ h))
      | exact fun h => (Except.ok.inj h) ▸ hkeep r rfl rfl
      | apply ite_flagStep (P := fun x => x = Except.ok f →
          ∃ added : List (Event κ),
            f.runner.log = r.log ++ added ∧ f.runner.pokerbot = replay bot added r.pokerbot)

theorem replayed_trans {β κ : Type} (bot : Bot β κ) {r r1 r2 : Runner β κ}
    (h1 : ∃ added : List (Event κ),
      r1.log = r.log ++ added ∧ r1.pokerbot = replay bot added r.pokerbot)
    (h2 : ∃ added : List (Event κ),
      r2.log = r1.log ++ added ∧ r2.pokerbot = replay bot added r1.pokerbot) :
    ∃ added : List (Event κ),
      r2.log = r.log ++ added ∧ r2.pokerbot = replay bot added r.pokerbot := by
  obtain ⟨a1, l1, b1⟩ := h1
  obtain ⟨a2, l2, b2⟩ := h2
  exact ⟨a1 ++ a2, by rw [l2, l1, List.append_assoc], by rw [b2, b1, replay_append]⟩

theorem foldClauses_replayed {β κ : Type} (env : Env κ) (bot : Bot β κ)
    (packet : List String) (r : Runner β κ) (f : Flow (Runner β κ))
    (h : foldClauses env bot r packet = Except.ok f) :
    ∃ added : List (Event κ),
      f.runner.log = r.log ++ added ∧ f.runner.pokerbot = replay bot added r.pokerbot := by
  induction packet generalizing r with
  | nil =>
    simp only [foldClauses] at h
    rw [← Except.ok.inj h]
    exact ⟨[], by simp [Flow.runner], rfl⟩
  | cons c cs ih =>
    unfold foldClauses at h
    cases hc : clauseStep env bot r c with
    | error e => simp [hc] at h
    | ok f1 =>
      have h1 := clauseStep_replayed env bot r c f1 hc
      cases f1 with
      | returned r1 =>
        simp only [hc] at h
        rw [← Except.ok.inj h]
        exact h1
      | next r1 =>
        simp only [hc] at h
        exact replayed_trans bot h1 (ih r1 h)

/-- The answer step changes the bot state only by the `getAction` it logs. -/
theorem respond_replayed {β κ : Type} (bot : Bot β κ) (r : Runner β κ) :
    ∃ added : List (Event κ),
      (respond bot r).log = r.log ++ added
        ∧ (respond bot r).pokerbot = replay bot added r.pokerbot := by
  unfold respond
  split
  · exact ⟨_, rfl, rfl⟩
  · exact ⟨_, rfl, rfl⟩

/-- Over a whole run the bot state is the one that the logged callbacks, applied
in order, produce: every logged invocation was applied to the bot, and nothing
else was. -/
theorem runPackets_replayed {β κ : Type} (env : Env κ) (bot : Bot β κ)
    (packets : List (List String)) (r : Runner β κ) (f : Flow (Runner β κ))
    (h : runPackets env bot r packets = Except.ok f) :
    ∃ added : List (Event κ),
      f.runner.log = r.log ++ added ∧ f.runner.pokerbot = replay bot added r.pokerbot := by
  induction packets generalizing r with
  | nil =>
    simp only [runPackets] at h
    rw [← Except.ok.inj h]
    exact ⟨[], by simp [Flow.runner], rfl⟩
  | cons p ps ih =>
    unfold runPackets packetStep at h
    cases hp : foldClauses env bot r p with
    | error e => simp [hp] at h
    | ok f1 =>
      have h1 := foldClauses_replayed env bot p r f1 hp
      cases f1 with
      | returned r1 =>
        simp only [hp] at h
        rw [← Except.ok.inj h]
        exact h1
      | next r1 =>
        simp only [hp] at h
        exact replayed_trans bot (replayed_trans bot h1 (respond_replayed bot r1))
          (ih (respond bot r1) h)

/-! ## The round-start callback within a round -/

/-- C7. One-shot round-start callback: from the initial runner, for every way
of cutting the clause sequence made of one 'H' with three cards followed by
`n` clauses 'G' into packets (one line or several), the run does not fail,
and `handleNewRound` is invoked exactly once when `n` is at least 1 (and not
at all when `n` is 0), with the game info of the runner, the round state
built by that 'H' and the active seat; the flag is clear afterwards.
The invocation is applied to the bot: the bot state at the end is the one that
the logged callbacks, applied in order, produce from the initial bot state.
In particular, the clauses alone take the bot to `handleNewRound` applied once
to the initial bot state, and on one line the run takes it to `getAction`
after that one `handleNewRound`. -/
theorem one_shot_round_start {β κ : Type} (env : Env κ) (bot : Bot β κ) (pokerbot : β)
    (c1 c2 c3 : String) (n : Nat) (packets : List (List String))
    (hcomma : ∀ c ∈ [c1, c2, c3], ',' ∉ c.data)
    (hpackets : packets.flatten
      = ("H" ++ String.intercalate "," [c1, c2, c3]) :: List.replicate n "G") :
    ∃ rH rf rn r1 : Runner β κ,
      clauseStep env bot (Runner.initial env pokerbot)
          ("H" ++ String.intercalate "," [c1, c2, c3]) = Except.ok (Flow.next rH)
      ∧ runPackets env bot (Runner.initial env pokerbot) packets = Except.ok (Flow.next rf)
      ∧ rf.roundState = rH.roundState
      ∧ rf.roundFlag = decide (n = 0)
      ∧ newRoundCalls rf.log =
          (if n = 0 then []
           else [Event.handleNewRound (Runner.initial env pokerbot).gameInfo rH.roundState
                  (Runner.initial env pokerbot).active])
      ∧ rf.pokerbot = replay bot rf.log pokerbot
      ∧ foldClauses env bot (Runner.initial env pokerbot) packets.flatten
          = Except.ok (Flow.next rn)
      ∧ rn.pokerbot =
          (if n = 0 then pokerbot
           else bot.handleNewRound pokerbot (Runner.initial env pokerbot).gameInfo
                  rH.roundState (Runner.initial env pokerbot).active)
      ∧ runPackets env bot (Runner.initial env pokerbot) [packets.flatten]
          = Except.ok (Flow.next r1)
      ∧ r1.pokerbot =
          (if n = 0 then pokerbot
           else (bot.getAction
                  (bot.handleNewRound pokerbot (Runner.initial env pokerbot).gameInfo
                    rH.roundState (Runner.initial env pokerbot).active)
                  (Runner.initial env pokerbot).gameInfo rH.roundState
                  (Runner.initial env pokerbot).active).2) := by
  have hH := caseH_eq env (Runner.initial env pokerbot) c1 c2 c3 (Or.inl rfl) hcomma
  generalize hrH : ({ Runner.initial env pokerbot with roundState :=
      (StatePtr.RoundState 0 0 (env.SMALL_BLIND, env.BIG_BLIND)
        (wrapInt (env.STARTING_STACK - env.SMALL_BLIND),
         wrapInt (env.STARTING_STACK - env.BIG_BLIND))
        (if (Runner.initial env pokerbot).active = 0 then ([c1, c2, c3], [])
         else ([], [c1, c2, c3]))
        [] StatePtr.nullptr) } : Runner β κ) = rH at hH
  have hstep : clauseStep env bot (Runner.initial env pokerbot)
      ("H" ++ String.intercalate "," [c1, c2, c3]) = Except.ok (Flow.next rH) := by
    rw [clauseStep_H, hH]
    rfl
  have hs : rH.roundState = StatePtr.RoundState 0 0 (env.SMALL_BLIND, env.BIG_BLIND)
        (wrapInt (env.STARTING_STACK - env.SMALL_BLIND),
         wrapInt (env.STARTING_STACK - env.BIG_BLIND))
        (if (Runner.initial env pokerbot).active = 0 then ([c1, c2, c3], [])
         else ([], [c1, c2, c3]))
        [] StatePtr.nullptr := by
    rw [← hrH]
  have hfields : rH.gameInfo = (Runner.initial env pokerbot).gameInfo
      ∧ rH.active = (Runner.initial env pokerbot).active ∧ rH.roundFlag = true
      ∧ newRoundCalls rH.log = [] ∧ rH.pokerbot = pokerbot := by
    rw [← hrH]
    exact ⟨rfl, rfl, rfl, rfl, rfl⟩
  obtain ⟨hg, hact, hflag, hlog, hbot⟩ := hfields
  obtain ⟨rn, h1, h2, h3, h4, h5, h6⟩ := foldClauses_G env bot n rH _ _ _ _ _ _ _ hs
  have hrnbot := foldClauses_G_pokerbot env bot n rH rn _ _ _ _ _ _ _ hs h1
  have hfold : foldClauses env bot (Runner.initial env pokerbot) packets.flatten
      = Except.ok (Flow.next rn) := by
    rw [hpackets]
    simp only [foldClauses, hstep]
    exact h1
  have hrun := runPackets_agree env bot bot packets _ _ (agree_refl (Runner.initial env pokerbot))
  rw [hfold] at hrun
  obtain ⟨rf, hrf, hag⟩ := flowAgree_next _ _ hrun
  obtain ⟨a1, a2, a3, a4, a5⟩ := hag
  obtain ⟨added, hadd1, hadd2⟩ := runPackets_replayed env bot packets _ _ hrf
  have hlogrf : rf.log = added := by
    simpa [Flow.runner, Runner.initial] using hadd1
  have hrnbot2 : rn.pokerbot =
      (if n = 0 then pokerbot
       else bot.handleNewRound pokerbot (Runner.initial env pokerbot).gameInfo
              rH.roundState (Runner.initial env pokerbot).active) := by
    rw [hrnbot, hflag, hbot, hg, hact]
    by_cases hn : n = 0 <;> simp [hn]
  have hrnterm : isTerminalState rn.roundState = false := by
    rw [h3, hs]
    rfl
  have hone : runPackets env bot (Runner.initial env pokerbot) [packets.flatten]
      = Except.ok (Flow.next (respond bot rn)) := by
    simp only [runPackets, packetStep, hfold]
  refine ⟨rH, rf, rn, respond bot rn, hstep, hrf, a2.trans h3, ?_, ?_, ?_, hfold, hrnbot2,
    hone, ?_⟩
  · rw [a4, h5, hflag]
    simp
  · rw [a5, h6, hlog, hflag, hg, hact]
    by_cases hn : n = 0 <;> simp [hn]
  · rw [hlogrf]
    exact hadd2
  · by_cases hn : n = 0
    · have hrflag : rn.roundFlag = true := by
        rw [h5, hflag]
        simp [hn]
      simp only [respond, hrflag, Bool.true_or, if_true, hn]
      rw [hrnbot2]
      simp [hn]
    · have hrflag : rn.roundFlag = false := by
        rw [h5, hflag]
        simp [hn]
      simp only [respond, hrflag, hrnterm, Bool.or_self, Bool.false_eq_true, if_false, hn]
      rw [hrnbot2, h2, h3, h4, hg, hact]
      simp [hn]

/-- Witness of C7: `HAs,Kd,2c G` on one line, then `G` twice on the next. -/
theorem one_shot_round_start_witness :
    ∃ rH rf rn r1 : Runner Nat Int,
      clauseStep sampleEnv sampleBot (Runner.initial sampleEnv 0)
          ("H" ++ String.intercalate "," ["As", "Kd", "2c"]) = Except.ok (Flow.next rH)
      ∧ runPackets sampleEnv sampleBot (Runner.initial sampleEnv 0)
          [["HAs,Kd,2c", "G"], ["G", "G"]] = Except.ok (Flow.next rf)
      ∧ rf.roundState = rH.roundState
      ∧ rf.roundFlag = decide (3 = 0)
      ∧ newRoundCalls rf.log =
          (if 3 = 0 then []
           else [Event.handleNewRound (Runner.initial sampleEnv 0).gameInfo rH.roundState
                  (Runner.initial sampleEnv 0).active])
      ∧ rf.pokerbot = replay sampleBot rf.log 0
      ∧ foldClauses sampleEnv sampleBot (Runner.initial sampleEnv 0)
          [["HAs,Kd,2c", "G"], ["G", "G"]].flatten = Except.ok (Flow.next rn)
      ∧ rn.pokerbot =
          (if 3 = 0 then 0
           else sampleBot.handleNewRound 0 (Runner.initial sampleEnv 0).gameInfo
                  rH.roundState (Runner.initial sampleEnv 0).active)
      ∧ runPackets sampleEnv sampleBot (Runner.initial sampleEnv 0)
          [[["HAs,Kd,2c", "G"], ["G", "G"]].flatten] = Except.ok (Flow.next r1)
      ∧ r1.pokerbot =
          (if 3 = 0 then 0
           else (sampleBot.getAction
                  (sampleBot.handleNewRound 0 (Runner.initial sampleEnv 0).gameInfo
                    rH.roundState (Runner.initial sampleEnv 0).active)
                  (Runner.initial sampleEnv 0).gameInfo rH.roundState
                  (Runner.initial sampleEnv 0).active).2) :=
  one_shot_round_start sampleEnv sampleBot 0 "As" "Kd" "2c" 3 [["HAs,Kd,2c", "G"], ["G", "G"]]
    (by decide) (by decide)

/-! ## The round-start callback over two rounds -/

/-- C8, the code on a session of two rounds. For every environment and bot,
after the lines `HAs,Kd,2c G` and `HQs,Qd,2h G` received by the initial
runner, `handleNewRound` has been applied to the bot once, with the round
state of the first hand, and never for the second hand: the 'H' of the second
round leaves the flag clear, so its 'G' only refreshes the state and the bot
is asked for an action in a round it was not told about. -/
theorem second_round_not_announced {β κ : Type} (env : Env κ) (bot : Bot β κ)
    (pokerbot : β) :
    ∃ (g0 : GameInfo κ) (s1 s2 : StatePtr) (b1 b2 b3 : β),
      g0 = { bankroll := 0, gameClock := env.zeroClock, roundNum := 1 }
      ∧ s1 = StatePtr.RoundState 0 0 (env.SMALL_BLIND, env.BIG_BLIND)
          (wrapInt (env.STARTING_STACK - env.SMALL_BLIND),
           wrapInt (env.STARTING_STACK - env.BIG_BLIND))
          (["As", "Kd", "2c"], []) [] StatePtr.nullptr
      ∧ s2 = StatePtr.RoundState 0 0 (env.SMALL_BLIND, env.BIG_BLIND)
          (wrapInt (env.STARTING_STACK - env.SMALL_BLIND),
           wrapInt (env.STARTING_STACK - env.BIG_BLIND))
          (["Qs", "Qd", "2h"], []) [] StatePtr.nullptr
      ∧ b1 = bot.handleNewRound pokerbot g0 s1 0
      ∧ b2 = (bot.getAction b1 g0 s1 0).2
      ∧ b3 = (bot.getAction b2 g0 s2 0).2
      ∧ runLines env bot (Runner.initial env pokerbot) ["HAs,Kd,2c G", "HQs,Qd,2h G"]
          = Except.ok (Flow.next
              { pokerbot := b3
                gameInfo := g0
                roundState := s2
                active := 0
                roundFlag := false
                log :=
                  [Event.handleNewRound g0 s1 0,
                   Event.getAction g0 s1 0,
                   Event.send (sendText (bot.getAction b1 g0 s1 0).1),
                   Event.getAction g0 s2 0,
                   Event.send (sendText (bot.getAction b2 g0 s2 0).1)] })
      ∧ foldClauses env bot (Runner.initial env pokerbot) ["HAs,Kd,2c", "G", "HQs,Qd,2h"]
          = Except.ok (Flow.next
              { pokerbot := b1
                gameInfo := g0
                roundState := s2
                active := 0
                roundFlag := false
                log := [Event.handleNewRound g0 s1 0] }) :=
  ⟨_, _, _, _, _, _, rfl, rfl, rfl, rfl, rfl, rfl, rfl, rfl⟩

end Skeleton
